import Mathlib

/-!
# CUinSpace flight simulator: event queue and system conversion cycle

A shallow embedding of `src/event.c`, of `src/system.c` (conversion, storage, the run
cycle, the worker loop) and of the growable arrays of `src/resource.c` and
`src/system.c`.

Modelling conventions
* A C pointer is an `Option`: `none` is `NULL`, `some a` is a valid address / object.
* The singly linked list `queue->head` is the `List Event` of its nodes, head first.
* C `int` values are `Int`. Signed overflow is undefined behaviour in C and is not
  modelled, except in `system_simulate_process_time`: its products are taken in 32-bit
  two's complement (`int32`), as on the usual targets. Every `usleep` argument is
  converted to the unsigned 32-bit `useconds_t`.
* A POSIX semaphore is its count (`Nat`). `sem_wait` on count `0` does not return to a
  caller running alone, which is the `Call.blocked` outcome.
* `malloc` for a queue node is an explicit Boolean input of `event_queue_push`
  (`true`: a node was returned, `false`: `NULL`).
* A `system_run` cycle that waits in `event_queue_push` is the `Run.blocked` outcome;
  it carries the system record and the memory at that point.
-/

namespace CUinSpace

/-! ## Data model -/

/-- Modelled from the spec: `defs.h` is not part of the sources; the status codes
`STATUS_OK`, `STATUS_EMPTY`, `STATUS_INSUFFICIENT`, `STATUS_CAPACITY` are the four
distinct codes "exposed across this boundary" (spec section 6). -/
inductive Status where
  | STATUS_OK
  | STATUS_EMPTY
  | STATUS_INSUFFICIENT
  | STATUS_CAPACITY
  deriving DecidableEq, Repr

/-- Modelled from the spec: `defs.h` is not part of the sources; the system status
modifiers are `STANDARD`, `SLOW`, `FAST`, `TERMINATE` (spec sections 3 and 6). -/
inductive SystemStatus where
  | STANDARD
  | SLOW
  | FAST
  | TERMINATE
  deriving DecidableEq, Repr

/-- The `Event` record filled by `event_init`: `system` and `resource` are addresses. -/
structure Event where
  system : Option Nat
  resource : Option Nat
  status : Status
  priority : Int
  amount : Int
  deriving DecidableEq, Repr

/-- The `EventQueue` record: node list (head first), explicit size, semaphore count. -/
structure EventQueue where
  head : List Event
  size : Int
  mutex : Nat
  deriving DecidableEq, Repr

/-- Outcome of a call that may wait on a semaphore. -/
inductive Call (α : Type) where
  | ret (a : α)
  | blocked
  deriving DecidableEq, Repr

/-! ## Semaphore -/

/-- POSIX `sem_wait`: decrements a positive count; on count `0` the caller waits
(`none`) until some other thread posts. -/
def sem_wait (count : Nat) : Option Nat :=
  if count = 0 then none else some (count - 1)

/-- POSIX `sem_post`: increments the count. -/
def sem_post (count : Nat) : Nat := count + 1

/-! ## `event.c` -/

/-- Function `event_init` (event.c:19-25). -/
def event_init (system : Option Nat) (resource : Option Nat) (status : Status)
    (priority : Int) (amount : Int) : Event :=
  { system := system, resource := resource, status := status,
    priority := priority, amount := amount }

/-- Function `event_queue_init` (event.c:36-43): empty list, size 0, `sem_init(.., 0, 1)`. -/
def event_queue_init : EventQueue :=
  { head := [], size := 0, mutex := 1 }

/-- The insertion scan of `event_queue_push` (event.c:97-108).
The first argument list holds the nodes already passed, ending with the node
`previous` points to (empty when `previous == NULL`); the second is the list
starting at `current`. The result is the pair at loop exit. -/
def push_scan (priority : Int) : List Event → List Event → List Event × List Event
  | previous, [] => (previous, [])
  | previous, current :: next =>
    if current.priority ≥ priority then
      if current.priority = priority then (previous, current :: next)
      else push_scan priority (previous ++ [current]) next
    else (previous, current :: next)

/-- Function `event_queue_push` (event.c:75-122). The result carries the state of
`*queue` after the call (`none` for a `NULL` queue pointer). -/
def event_queue_push (queue : Option EventQueue) (event : Option Event)
    (malloc_ok : Bool) : Call (Option EventQueue) :=
  match queue, event with
  | none, _ => .ret none
  | some q, none => .ret (some q)
  | some q, some e =>
    match sem_wait q.mutex with
    | none => .blocked
    | some m =>
      if malloc_ok = false then
        -- `new_node == NULL`: return, the semaphore is not posted
        .ret (some { q with mutex := m })
      else
        match q.head with
        | [] =>
          -- empty queue: `head = new_node; size = 1; return;` (no `sem_post`)
          .ret (some { head := [e], size := 1, mutex := m })
        | c :: cs =>
          match push_scan e.priority [] (c :: cs) with
          | ([], _) =>
            -- `previous == NULL`: the new node becomes the head
            .ret (some { head := e :: c :: cs, size := q.size + 1, mutex := sem_post m })
          | (p :: ps, current) =>
            -- insert after `previous`, in front of `current`
            .ret (some { head := (p :: ps) ++ e :: current, size := q.size + 1,
                         mutex := sem_post m })

/-- Function `event_queue_pop` (event.c:133-149). The result is the returned `int`,
the state of `*queue` and the state of `*event` after the call. The `sem_wait`
of the source is commented out; the trailing `sem_post; return 0;` cannot be
reached because the first guard already returned for an empty list. -/
def event_queue_pop (queue : Option EventQueue) (event : Option Event) :
    Int × Option EventQueue × Option Event :=
  match queue, event with
  | none, ev => (0, none, ev)
  | some q, none => (0, some q, none)
  | some q, some ev =>
    match q.head with
    | [] => (0, some q, some ev)
    | node_pop :: next =>
      (1, some { head := next, size := q.size - 1, mutex := sem_post q.mutex },
       some node_pop)

/-- Queue states reachable from `event_queue_init` by calls of `event_queue_push`
and `event_queue_pop` (non-null arguments) that return. -/
inductive Reachable : EventQueue → Prop where
  | init : Reachable event_queue_init
  | push (q : EventQueue) (e : Event) (malloc_ok : Bool) (q' : EventQueue) :
      Reachable q → event_queue_push (some q) (some e) malloc_ok = .ret (some q') →
      Reachable q'
  | pop (q : EventQueue) (ev : Event) (r : Int) (q' : EventQueue) (ev' : Option Event) :
      Reachable q → event_queue_pop (some q) (some ev) = (r, some q', ev') →
      Reachable q'

/-- Priorities never increase from head to tail. -/
def PrioritySorted (l : List Event) : Prop :=
  l.Pairwise (fun a b => b.priority ≤ a.priority)

instance (l : List Event) : Decidable (PrioritySorted l) := by
  unfold PrioritySorted
  infer_instance

/-- The facts that hold of every reachable queue. -/
structure QueueInv (q : EventQueue) : Prop where
  size_eq : q.size = q.head.length
  sorted : PrioritySorted q.head
  lock : q.mutex + q.head.length ≤ 1

/-- Test driver: push the events one after the other (nodes always allocated);
`blocked` as soon as one push waits on the semaphore. -/
def push_all : EventQueue → List Event → Call EventQueue
  | q, [] => .ret q
  | q, e :: es =>
    match event_queue_push (some q) (some e) true with
    | .ret (some q') => push_all q' es
    | .ret none => .blocked
    | .blocked => .blocked

/-! ## `resource.c` and `system.c` -/

/-- The `Resource` record (the counters; the name and the semaphore, which no code
path of `system.c` takes, are left out). -/
structure Resource where
  amount : Int
  max_capacity : Int
  deriving DecidableEq, Repr

/-- The `ResourceAmount` record of `resource_amount_init` (resource.c:70-73). -/
structure ResourceAmount where
  resource : Option Nat
  amount : Int
  deriving DecidableEq, Repr

/-- The `System` record as set up by `system_create` (system.c:27-49). -/
structure System where
  consumed : ResourceAmount
  produced : ResourceAmount
  processing_time : Int
  event_queue : Option Nat
  status : SystemStatus
  amount_stored : Int
  deriving DecidableEq, Repr

/-- The memory a system works on: the `Resource` objects by address, the trace of
`usleep` arguments (microseconds), most recent last, and for every processing-time
sleep the system record as it stands while the worker is suspended in it. -/
structure World where
  resources : Nat → Resource
  slept : List Int
  during_sleep : List System := []

/-- Store `r` at address `a`. -/
def World.setResource (w : World) (a : Nat) (r : Resource) : World :=
  { w with resources := fun b => if b = a then r else w.resources b }

/-- The value a 32-bit two's complement `int` holds after an arithmetic result `x`. -/
def int32 (x : Int) : Int :=
  (x + 2147483648) % 4294967296 - 2147483648

/-- Conversion of an `int` to `useconds_t`, the unsigned 32-bit parameter type of
`usleep`. -/
def useconds_t (x : Int) : Int :=
  x % 4294967296

/-- Call of `usleep(us)` with an `int` argument: the trace gets the `useconds_t` value
the function receives. -/
def World.usleep (w : World) (us : Int) : World :=
  { w with slept := w.slept ++ [useconds_t us] }

/-- The switch of `system_simulate_process_time` (system.c:159-168) in `int`
arithmetic; `/` is the C integer division, which truncates toward zero. -/
def adjusted_processing_time (system : System) : Int :=
  match system.status with
  | .SLOW => int32 (system.processing_time * 2)
  | .FAST => Int.tdiv system.processing_time 2
  | _ => system.processing_time

/-- The delay in milliseconds as the spec words it, over the integers: the nominal
processing time doubled under `SLOW`, halved (C division) under `FAST`, unchanged
otherwise. -/
def scaled_processing_time (system : System) : Int :=
  match system.status with
  | .SLOW => system.processing_time * 2
  | .FAST => Int.tdiv system.processing_time 2
  | _ => system.processing_time

/-- Function `system_simulate_process_time` (system.c:155-172): the call
`usleep(adjusted_processing_time * 1000)`, the product taken in `int`; the worker
sleeps with the system record as it is at the call. -/
def system_simulate_process_time (system : System) (w : World) : World :=
  { w.usleep (int32 (adjusted_processing_time system * 1000)) with
    during_sleep := w.during_sleep ++ [system] }

/-- The consume step of `system_convert` (system.c:119-132): status and memory. -/
def system_consume (system : System) (w : World) : Status × World :=
  match system.consumed.resource with
  | none => (.STATUS_OK, w)
  | some consumed_resource =>
    let r := w.resources consumed_resource
    if r.amount ≥ system.consumed.amount then
      (.STATUS_OK,
        w.setResource consumed_resource { r with amount := r.amount - system.consumed.amount })
    else
      (if r.amount = 0 then .STATUS_EMPTY else .STATUS_INSUFFICIENT, w)

/-- Function `system_convert` (system.c:114-145). -/
def system_convert (system : System) (w : World) : Status × System × World :=
  match system_consume system w with
  | (.STATUS_OK, w1) =>
    let w2 := system_simulate_process_time system w1
    match system.produced.resource with
    | some _ =>
      (.STATUS_OK,
        { system with amount_stored := system.amount_stored + system.produced.amount }, w2)
    | none => (.STATUS_OK, { system with amount_stored := 0 }, w2)
  | (status, w1) => (status, system, w1)

/-- Function `system_store_resources` (system.c:185-219). -/
def system_store_resources (system : System) (w : World) : Status × System × World :=
  match system.produced.resource with
  | none => (.STATUS_OK, { system with amount_stored := 0 }, w)
  | some produced_resource =>
    if system.amount_stored = 0 then
      (.STATUS_OK, { system with amount_stored := 0 }, w)
    else
      let r := w.resources produced_resource
      let amount_to_store := system.amount_stored
      let available_space := r.max_capacity - r.amount
      let sw : System × World :=
        if available_space ≥ amount_to_store then
          ({ system with amount_stored := 0 },
            w.setResource produced_resource { r with amount := r.amount + amount_to_store })
        else if available_space > 0 then
          ({ system with amount_stored := amount_to_store - available_space },
            w.setResource produced_resource { r with amount := r.amount + available_space })
        else (system, w)
      if sw.1.amount_stored ≠ 0 then (.STATUS_CAPACITY, sw.1, sw.2)
      else (.STATUS_OK, sw.1, sw.2)

/-- Test driver: call `system_convert` `n` times in a row, collecting the statuses. -/
def convert_repeat : Nat → System → World → List Status × System × World
  | 0, system, w => ([], system, w)
  | n + 1, system, w =>
    match system_convert system w with
    | (status, system1, w1) =>
      match convert_repeat n system1 w1 with
      | (statuses, system2, w2) => (status :: statuses, system2, w2)

/-! ## `system.c`: the run cycle, the worker loop, the arrays -/

/-- Modelled from the spec: `defs.h` is not part of the sources; the priority levels
`PRIORITY_HIGH`, `PRIORITY_LOW` and the back-off quantum `SYSTEM_WAIT_TIME`
(milliseconds) are used by `system_run` without a value in the sources and are
parameters of the model. -/
structure Defs where
  PRIORITY_HIGH : Int
  PRIORITY_LOW : Int
  SYSTEM_WAIT_TIME : Int
  deriving DecidableEq, Repr

/-- Memory seen by a system: the resources and sleep trace, and the event queues by
address. -/
structure Machine where
  world : World
  queues : Nat → EventQueue

/-- Outcome of one `system_run` call: it returned; or it waits inside
`event_queue_push` on the queue semaphore (with the state at that point, the queue
untouched); or it read `->amount` through a `NULL` resource pointer. -/
inductive Run where
  | ret (system : System) (m : Machine)
  | blocked (system : System) (m : Machine)
  | null_deref

/-- The system record and memory a cycle ended with (returned or waiting). -/
def Run.state : Run → Option (System × Machine)
  | .ret system m => some (system, m)
  | .blocked system m => some (system, m)
  | .null_deref => none

/-- Function `system_create` (system.c:27-49); the name is left out. -/
def system_create (consumed : ResourceAmount) (produced : ResourceAmount)
    (processing_time : Int) (event_queue : Option Nat) : System :=
  { consumed := consumed, produced := produced, processing_time := processing_time,
    event_queue := event_queue, status := .STANDARD, amount_stored := 0 }

/-- Call of `event_queue_push(queue, &event)` on the queue stored at address `queue`. -/
def Machine.push (m : Machine) (queue : Option Nat) (event : Event) (malloc_ok : Bool) :
    Call Machine :=
  match queue with
  | none =>
    match event_queue_push none (some event) malloc_ok with
    | .blocked => .blocked
    | .ret _ => .ret m
  | some a =>
    match event_queue_push (some (m.queues a)) (some event) malloc_ok with
    | .blocked => .blocked
    | .ret (some q') => .ret { m with queues := fun b => if b = a then q' else m.queues b }
    | .ret none => .ret m

/-- First block of `system_run` (system.c:78-89): CONVERT when nothing is pending,
and the `PRIORITY_HIGH` report when it fails. `self` is the address of the system. -/
def system_run_convert (d : Defs) (self : Nat) (malloc_ok : Bool) (system : System)
    (m : Machine) : Run :=
  if system.amount_stored = 0 then
    match system_convert system m.world with
    | (result_status, system1, w1) =>
      if result_status ≠ .STATUS_OK then
        match system1.consumed.resource with
        | none => .null_deref
        | some c =>
          match ({ m with world := w1 } : Machine).push system1.event_queue
              (event_init (some self) (some c) result_status d.PRIORITY_HIGH
                (w1.resources c).amount) malloc_ok with
          | .blocked => .blocked system1 { m with world := w1 }
          | .ret m1 =>
            .ret system1 { m1 with world := m1.world.usleep (d.SYSTEM_WAIT_TIME * 1000) }
      else .ret system1 { m with world := w1 }
  else .ret system m

/-- Second block of `system_run` (system.c:91-101): STORE when something is pending,
and the `PRIORITY_LOW` report when not everything could be stored. -/
def system_run_store (d : Defs) (self : Nat) (malloc_ok : Bool) (system : System)
    (m : Machine) : Run :=
  if system.amount_stored > 0 then
    match system_store_resources system m.world with
    | (result_status, system1, w1) =>
      if result_status ≠ .STATUS_OK then
        match system1.produced.resource with
        | none => .null_deref
        | some p =>
          match ({ m with world := w1 } : Machine).push system1.event_queue
              (event_init (some self) (some p) result_status d.PRIORITY_LOW
                (w1.resources p).amount) malloc_ok with
          | .blocked => .blocked system1 { m with world := w1 }
          | .ret m1 =>
            .ret system1 { m1 with world := m1.world.usleep (d.SYSTEM_WAIT_TIME * 1000) }
      else .ret system1 { m with world := w1 }
  else .ret system m

/-- Function `system_run` (system.c:74-102). -/
def system_run (d : Defs) (self : Nat) (malloc_ok : Bool) (system : System)
    (m : Machine) : Run :=
  match system_run_convert d self malloc_ok system m with
  | .ret system1 m1 => system_run_store d self malloc_ok system1 m1
  | r => r

/-- Function `system_thread` (system.c:298-306): the loop runs at most `fuel` cycles;
`none` when the loop is still running after them, `some (.ret ..)` when the worker
returned. -/
def system_thread (d : Defs) (self : Nat) (malloc_ok : Bool) :
    Nat → System → Machine → Option Run
  | fuel, system, m =>
    if system.status ≠ .TERMINATE then
      match fuel with
      | 0 => none
      | n + 1 =>
        match system_run d self malloc_ok system m with
        | .ret system1 m1 => system_thread d self malloc_ok n system1 m1
        | r => some r
    else some (.ret system m)

/-- Test driver: `n` successive `system_run` cycles of one system; stops at the first
cycle that does not return. -/
def run_cycles (d : Defs) (self : Nat) (malloc_ok : Bool) : Nat → System → Machine → Run
  | 0, system, m => .ret system m
  | n + 1, system, m =>
    match system_run d self malloc_ok system m with
    | .ret system1 m1 => run_cycles d self malloc_ok n system1 m1
    | r => r

/-- The effect of one `system_run` cycle on the system record and on the resources,
the queue and the sleep trace left out: CONVERT when nothing is pending, then STORE
when something is pending. Used to state the lemmas on `system_run`. -/
def cycle_effect (system : System) (w : World) : System × (Nat → Resource) :=
  let c : System × World :=
    if system.amount_stored = 0 then
      ((system_convert system w).2.1, (system_convert system w).2.2)
    else (system, w)
  if c.1.amount_stored > 0 then
    ((system_store_resources c.1 c.2).2.1, (system_store_resources c.1 c.2).2.2.resources)
  else (c.1, c.2.resources)

/-- Every resource holds between 0 and its capacity. -/
def ResourcesOK (resources : Nat → Resource) : Prop :=
  ∀ a, 0 ≤ (resources a).amount ∧ (resources a).amount ≤ (resources a).max_capacity

/-- Memory states reached from `m` by any sequence of `system_run` cycles (returned
or waiting in a push) of systems that consume a non-negative amount, with any
activity on the event queues in between. -/
inductive Cycles (d : Defs) : Machine → Machine → Prop where
  | refl (m : Machine) : Cycles d m m
  | cycle (m m1 m2 : Machine) (self : Nat) (malloc_ok : Bool) (system system' : System) :
      Cycles d m m1 → 0 ≤ system.consumed.amount →
      (system_run d self malloc_ok system m1).state = some (system', m2) →
      Cycles d m m2
  | queue (m m1 m2 : Machine) :
      Cycles d m m1 → m2.world = m1.world → Cycles d m m2

/-- Units one cycle takes from the consumed resource: `consumed.amount` when CONVERT
ran (nothing was pending) and returned `STATUS_OK`, otherwise 0. -/
def cycle_consumed (system : System) (w : World) : Int :=
  if system.amount_stored = 0 ∧ (system_convert system w).1 = .STATUS_OK then
    system.consumed.amount
  else 0

/-- Units one cycle credits to the pending amount: `produced.amount` when CONVERT ran
and returned `STATUS_OK`, otherwise 0. -/
def cycle_credited (system : System) (w : World) : Int :=
  if system.amount_stored = 0 ∧ (system_convert system w).1 = .STATUS_OK then
    system.produced.amount
  else 0

/-- Units one cycle moved out of the pending amount into the produced resource, as
seen on the system record before (`system`) and after (`system'`) the cycle. -/
def cycle_absorbed (system system' : System) (w : World) : Int :=
  system.amount_stored + cycle_credited system w - system'.amount_stored

/-- Sequences of `system_run` cycles of systems with distinct non-null consumed and
produced resources, from memory `m` on, together with the totals per resource
address of the units consumed from it and absorbed into it, as accounted cycle by
cycle on the system side. -/
inductive Ledger (d : Defs) : Machine → Machine → (Nat → Int) → (Nat → Int) → Prop where
  | start (m : Machine) : Ledger d m m (fun _ => 0) (fun _ => 0)
  | cycle (m m1 m2 : Machine) (consumed absorbed : Nat → Int) (self : Nat)
      (malloc_ok : Bool) (system system' : System) (C P : Nat) :
      Ledger d m m1 consumed absorbed →
      system.consumed.resource = some C → system.produced.resource = some P → C ≠ P →
      (system_run d self malloc_ok system m1).state = some (system', m2) →
      Ledger d m m2
        (fun x => consumed x + if x = C then cycle_consumed system m1.world else 0)
        (fun x => absorbed x + if x = P then cycle_absorbed system system' m1.world else 0)
  | queue (m m1 m2 : Machine) (consumed absorbed : Nat → Int) :
      Ledger d m m1 consumed absorbed → m2.world = m1.world →
      Ledger d m m2 consumed absorbed

/-! ## The growable arrays of `resource.c` and `system.c` -/

/-- Outcome of an array operation: done; the process left through
`exit(EXIT_FAILURE)` after a failed `malloc`; or a slot outside the buffer was
written. -/
inductive ArrayOutcome (α : Type) where
  | ok (a : α)
  | exit_failure
  | out_of_bounds

/-- The `ResourceArray` record: `resources` gives the content of the buffer slot by
index (a `Resource*`), the buffer has `capacity` slots, `size` of them are in use.
The two counters count slots and are `Nat`. -/
structure ResourceArray where
  resources : Nat → Option Nat
  size : Nat
  capacity : Nat

/-- The `SystemArray` record, laid out like `ResourceArray`. -/
structure SystemArray where
  systems : Nat → Option Nat
  size : Nat
  capacity : Nat

/-- Function `resource_array_init` (resource.c:82-89) on a non-null array pointer;
`fresh` is the unspecified content of the block `malloc` returned. -/
def resource_array_init (fresh : Nat → Option Nat) : ResourceArray :=
  { resources := fresh, size := 0, capacity := 1 }

/-- Function `system_array_init` (system.c:229-237) on a non-null array pointer. -/
def system_array_init (fresh : Nat → Option Nat) : SystemArray :=
  { systems := fresh, size := 0, capacity := 1 }

/-- Function `resource_array_add` (resource.c:125-153). `malloc` is the answer of the
allocator if it is asked: `none` for `NULL`, else the content of the new block. -/
def resource_array_add (array : ResourceArray) (resource : Option Nat)
    (malloc : Option (Nat → Option Nat)) : ArrayOutcome ResourceArray :=
  let grown : ArrayOutcome ResourceArray :=
    if array.size = array.capacity then
      match malloc with
      | none => .exit_failure
      | some new_resources =>
        .ok { resources := fun i => if i < array.size then array.resources i
                                    else new_resources i,
              size := array.size, capacity := array.capacity * 2 }
    else .ok array
  match grown with
  | .ok a =>
    if a.size < a.capacity then
      .ok { a with resources := fun i => if i = a.size then resource else a.resources i,
                   size := a.size + 1 }
    else .out_of_bounds
  | r => r

/-- Function `system_array_add` (system.c:271-295). -/
def system_array_add (array : SystemArray) (system : Option Nat)
    (malloc : Option (Nat → Option Nat)) : ArrayOutcome SystemArray :=
  let grown : ArrayOutcome SystemArray :=
    if array.size = array.capacity then
      match malloc with
      | none => .exit_failure
      | some new_system =>
        .ok { systems := fun i => if i < array.size then array.systems i else new_system i,
              size := array.size, capacity := array.capacity * 2 }
    else .ok array
  match grown with
  | .ok a =>
    if a.size < a.capacity then
      .ok { a with systems := fun i => if i = a.size then system else a.systems i,
                   size := a.size + 1 }
    else .out_of_bounds
  | r => r

/-- The handles an array holds, in slot order. -/
def ResourceArray.elems (a : ResourceArray) : List (Option Nat) :=
  (List.range a.size).map a.resources

/-- The handles an array holds, in slot order. -/
def SystemArray.elems (a : SystemArray) : List (Option Nat) :=
  (List.range a.size).map a.systems

/-- Test driver: add the handles one after the other, every allocation answered by a
block of content `fresh`. -/
def resource_array_add_all (fresh : Nat → Option Nat) :
    ResourceArray → List (Option Nat) → ArrayOutcome ResourceArray
  | a, [] => .ok a
  | a, h :: hs =>
    match resource_array_add a h (some fresh) with
    | .ok a1 => resource_array_add_all fresh a1 hs
    | r => r

/-- Test driver: add the handles one after the other, every allocation answered by a
block of content `fresh`. -/
def system_array_add_all (fresh : Nat → Option Nat) :
    SystemArray → List (Option Nat) → ArrayOutcome SystemArray
  | a, [] => .ok a
  | a, h :: hs =>
    match system_array_add a h (some fresh) with
    | .ok a1 => system_array_add_all fresh a1 hs
    | r => r

/-- Queue states reached from `q` by any sequence of `event_queue_push` and
`event_queue_pop` calls (non-null arguments) that return. `Reachable` is the case
`q = event_queue_init`. -/
inductive Steps : EventQueue → EventQueue → Prop where
  | refl (q : EventQueue) : Steps q q
  | push (q q1 : EventQueue) (e : Event) (malloc_ok : Bool) (q2 : EventQueue) :
      Steps q q1 → event_queue_push (some q1) (some e) malloc_ok = .ret (some q2) →
      Steps q q2
  | pop (q q1 : EventQueue) (ev : Event) (r : Int) (q2 : EventQueue) (ev' : Option Event) :
      Steps q q1 → event_queue_pop (some q1) (some ev) = (r, some q2, ev') →
      Steps q q2

/-! ## Event queue: supporting lemmas -/

theorem sem_wait_pos (n : Nat) (h : 0 < n) : sem_wait n = some (n - 1) := by
  unfold sem_wait
  rw [if_neg (by omega)]

theorem sem_wait_zero : sem_wait 0 = none := by
  simp [sem_wait]

/-- The scan stops in front of the first node whose priority is not above the new one. -/
theorem push_scan_spec (p : Int) (l : List Event) :
    ∀ previous : List Event, ∃ pre post,
      push_scan p previous l = (previous ++ pre, post) ∧ l = pre ++ post ∧
      (∀ n ∈ pre, p < n.priority) ∧ (∀ n, post.head? = some n → n.priority ≤ p) := by
  induction l with
  | nil =>
    intro previous
    exact ⟨[], [], by simp [push_scan], rfl, by simp, by simp⟩
  | cons c next ih =>
    intro previous
    by_cases h1 : c.priority ≥ p
    · by_cases h2 : c.priority = p
      · refine ⟨[], c :: next, by simp [push_scan, h2], rfl, by simp, ?_⟩
        intro n hn
        simp at hn
        subst hn
        omega
      · obtain ⟨pre, post, hs, hl, hpre, hpost⟩ := ih (previous ++ [c])
        refine ⟨c :: pre, post, ?_, by simp [hl], ?_, hpost⟩
        · simp [push_scan, h1, h2, hs]
        · intro n hn
          rcases List.mem_cons.mp hn with rfl | hn
          · omega
          · exact hpre n hn
    · refine ⟨[], c :: next, by simp [push_scan, h1], rfl, by simp, ?_⟩
      intro n hn
      simp at hn
      subst hn
      omega

/-- What a push does when the semaphore can be taken and the node is allocated. -/
theorem event_queue_push_ret (q : EventQueue) (e : Event) (h : 0 < q.mutex) :
    ∃ pre post, q.head = pre ++ post ∧ (∀ n ∈ pre, e.priority < n.priority) ∧
      (∀ n, post.head? = some n → n.priority ≤ e.priority) ∧
      event_queue_push (some q) (some e) true =
        .ret (some { head := pre ++ e :: post,
                     size := if q.head = [] then 1 else q.size + 1,
                     mutex := if q.head = [] then q.mutex - 1 else q.mutex }) := by
  obtain ⟨hd, sz, m⟩ := q
  simp only at h
  cases hd with
  | nil =>
    refine ⟨[], [], rfl, by simp, by simp, ?_⟩
    simp [event_queue_push, sem_wait_pos m h]
  | cons c cs =>
    obtain ⟨pre, post, hs, hl, hpre, hpost⟩ := push_scan_spec e.priority (c :: cs) []
    refine ⟨pre, post, hl, hpre, hpost, ?_⟩
    have hm : sem_post (m - 1) = m := by unfold sem_post; omega
    simp only [event_queue_push, sem_wait_pos m h, hs, List.nil_append]
    cases pre with
    | nil =>
      simp only [List.nil_append] at hl
      subst hl
      simp [hm]
    | cons p ps => simp [hm]

/-- A push that finds the semaphore at 0 waits. -/
theorem event_queue_push_blocked (q : EventQueue) (e : Event) (b : Bool)
    (h : q.mutex = 0) : event_queue_push (some q) (some e) b = .blocked := by
  simp [event_queue_push, h, sem_wait_zero]

/-- Inserting in front of the first node of priority at most the new one keeps the
list sorted. -/
theorem PrioritySorted.insert {pre post : List Event} {e : Event}
    (hs : PrioritySorted (pre ++ post)) (hpre : ∀ n ∈ pre, e.priority < n.priority)
    (hpost : ∀ n, post.head? = some n → n.priority ≤ e.priority) :
    PrioritySorted (pre ++ e :: post) := by
  unfold PrioritySorted at *
  rw [List.pairwise_append] at hs ⊢
  obtain ⟨h1, h2, h3⟩ := hs
  have hall : ∀ n ∈ post, n.priority ≤ e.priority := by
    cases post with
    | nil => simp
    | cons x xs =>
      have hx := hpost x rfl
      intro n hn
      rcases List.mem_cons.mp hn with rfl | hn
      · exact hx
      · have := (List.pairwise_cons.mp h2).1 n hn
        omega
  refine ⟨h1, List.pairwise_cons.mpr ⟨hall, h2⟩, ?_⟩
  intro a ha b hb
  rcases List.mem_cons.mp hb with rfl | hb
  · exact le_of_lt (hpre a ha)
  · exact h3 a ha b hb

/-- A push whose node allocation fails returns with the semaphore still taken. -/
theorem event_queue_push_no_node (q : EventQueue) (e : Event) (h : 0 < q.mutex) :
    event_queue_push (some q) (some e) false = .ret (some { q with mutex := q.mutex - 1 }) := by
  simp [event_queue_push, sem_wait_pos q.mutex h]

theorem QueueInv.init : QueueInv event_queue_init :=
  ⟨rfl, List.Pairwise.nil, by simp [event_queue_init]⟩

theorem QueueInv.push {q q' : EventQueue} {e : Event} {b : Bool} (hq : QueueInv q)
    (hp : event_queue_push (some q) (some e) b = .ret (some q')) : QueueInv q' := by
  rcases Nat.eq_zero_or_pos q.mutex with h0 | hpos
  · rw [event_queue_push_blocked q e b h0] at hp
    cases hp
  · cases b with
    | false =>
      rw [event_queue_push_no_node q e hpos] at hp
      injection hp with hp
      injection hp with hp
      subst hp
      exact ⟨hq.size_eq, hq.sorted, by have := hq.lock; simp only; omega⟩
    | true =>
      obtain ⟨pre, post, hl, hpre, hpost, hpush⟩ := event_queue_push_ret q e hpos
      rw [hpush] at hp
      injection hp with hp
      injection hp with hp
      subst hp
      have hlock := hq.lock
      have hnil : q.head = [] := by
        cases hh : q.head with
        | nil => rfl
        | cons c cs => rw [hh] at hlock; simp at hlock; omega
      have hpp : pre = [] ∧ post = [] := by
        rw [hnil] at hl
        simpa using hl.symm
      refine ⟨?_, ?_, ?_⟩
      · simp [hnil, hpp.1, hpp.2]
      · exact PrioritySorted.insert (hl ▸ hq.sorted) hpre hpost
      · simp only [hnil, hpp.1, hpp.2, if_true]
        simp
        omega

theorem QueueInv.pop {q q' : EventQueue} {ev : Event} {r : Int} {ev' : Option Event}
    (hq : QueueInv q) (hp : event_queue_pop (some q) (some ev) = (r, some q', ev')) :
    QueueInv q' := by
  obtain ⟨hd, sz, m⟩ := q
  obtain ⟨h1, h2, h3⟩ := hq
  cases hd with
  | nil =>
    simp [event_queue_pop] at hp
    obtain ⟨-, rfl, -⟩ := hp
    exact ⟨h1, h2, h3⟩
  | cons c cs =>
    simp [event_queue_pop] at hp
    obtain ⟨-, rfl, -⟩ := hp
    simp only [List.length_cons] at h1 h3
    refine ⟨?_, (List.pairwise_cons.mp h2).2, ?_⟩
    · simp only; push_cast at h1; omega
    · simp only [sem_post]; omega

theorem Reachable.inv {q : EventQueue} (h : Reachable q) : QueueInv q := by
  induction h with
  | init => exact QueueInv.init
  | push q e b q' _ hp ih => exact ih.push hp
  | pop q ev r q' ev' _ hp ih => exact ih.pop hp

/-- No reachable queue holds a second node. -/
theorem Reachable.length_le_one {q : EventQueue} (h : Reachable q) : q.head.length ≤ 1 := by
  have := h.inv.lock
  omega

/-! ## Event queue: the claims -/

/-- C1: when `event_queue_push` gets the semaphore and its node, the new node list is
the old one with a copy of `e` inserted immediately before the first node whose
priority is `<= e.priority` (at the tail when there is none, at the head of an empty
queue); the old nodes `pre ++ post` keep their contents and order. -/
theorem event_queue_push_inserts (q : EventQueue) (e : Event) (h : 0 < q.mutex) :
    ∃ q' pre post, event_queue_push (some q) (some e) true = .ret (some q') ∧
      q.head = pre ++ post ∧ q'.head = pre ++ e :: post ∧
      (∀ n ∈ pre, ¬ n.priority ≤ e.priority) ∧
      (∀ n, post.head? = some n → n.priority ≤ e.priority) := by
  obtain ⟨pre, post, hl, hpre, hpost, hpush⟩ := event_queue_push_ret q e h
  exact ⟨_, pre, post, hpush, hl, rfl, fun n hn => not_le.mpr (hpre n hn), hpost⟩

theorem event_queue_push_inserts_witness :
    0 < (1 : Nat) ∧
    ∃ q' pre post,
      event_queue_push
        (some { head := [event_init none none .STATUS_OK 3 0, event_init none none .STATUS_OK 1 0],
                size := 2, mutex := 1 })
        (some (event_init none none .STATUS_OK 2 7)) true = .ret (some q') ∧
      [event_init none none .STATUS_OK 3 0, event_init none none .STATUS_OK 1 0] = pre ++ post ∧
      q'.head = pre ++ event_init none none .STATUS_OK 2 7 :: post ∧
      (∀ n ∈ pre, ¬ n.priority ≤ (event_init none none .STATUS_OK 2 7).priority) ∧
      (∀ n, post.head? = some n → n.priority ≤ (event_init none none .STATUS_OK 2 7).priority) :=
  ⟨by decide,
   event_queue_push_inserts
     { head := [event_init none none .STATUS_OK 3 0, event_init none none .STATUS_OK 1 0],
       size := 2, mutex := 1 }
     (event_init none none .STATUS_OK 2 7) (by decide)⟩

/-- C2 (code evaluated at the failing input): in a freshly initialised queue the
first push returns without posting the semaphore, so a second push in a row waits
on it and never returns; no sequence of two or more pushes completes. -/
theorem push_all_second_blocks (e1 e2 : Event) (es : List Event) :
    event_queue_push (some event_queue_init) (some e1) true =
        .ret (some { head := [e1], size := 1, mutex := 0 }) ∧
      event_queue_push (some { head := [e1], size := 1, mutex := 0 }) (some e2) true = .blocked ∧
      push_all event_queue_init (e1 :: e2 :: es) = .blocked := by
  refine ⟨by simp [event_queue_push, event_queue_init, sem_wait], ?_, ?_⟩
  · simp [event_queue_push, sem_wait]
  · simp [push_all, event_queue_push, event_queue_init, sem_wait]

/-- A push that returns keeps a sorted node list sorted, whatever the list. -/
theorem event_queue_push_sorted {q q' : EventQueue} {e : Event} {b : Bool}
    (hs : PrioritySorted q.head)
    (hp : event_queue_push (some q) (some e) b = .ret (some q')) :
    PrioritySorted q'.head := by
  rcases Nat.eq_zero_or_pos q.mutex with h0 | hpos
  · rw [event_queue_push_blocked q e b h0] at hp
    cases hp
  · cases b with
    | false =>
      rw [event_queue_push_no_node q e hpos] at hp
      injection hp with hp
      injection hp with hp
      subst hp
      exact hs
    | true =>
      obtain ⟨pre, post, hl, hpre, hpost, hpush⟩ := event_queue_push_ret q e hpos
      rw [hpush] at hp
      injection hp with hp
      injection hp with hp
      subst hp
      exact PrioritySorted.insert (hl ▸ hs) hpre hpost

/-- A pop keeps a sorted node list sorted. -/
theorem event_queue_pop_sorted {q q' : EventQueue} {ev : Event} {r : Int}
    {ev' : Option Event} (hs : PrioritySorted q.head)
    (hp : event_queue_pop (some q) (some ev) = (r, some q', ev')) :
    PrioritySorted q'.head := by
  obtain ⟨hd, sz, m⟩ := q
  cases hd with
  | nil =>
    simp [event_queue_pop] at hp
    obtain ⟨-, rfl, -⟩ := hp
    exact hs
  | cons c cs =>
    simp [event_queue_pop] at hp
    obtain ⟨-, rfl, -⟩ := hp
    exact (List.pairwise_cons.mp hs).2

/-- A push that returns keeps `size` equal to the number of nodes, whatever the list. -/
theorem event_queue_push_size {q q' : EventQueue} {e : Event} {b : Bool}
    (hsz : q.size = q.head.length)
    (hp : event_queue_push (some q) (some e) b = .ret (some q')) :
    q'.size = q'.head.length := by
  rcases Nat.eq_zero_or_pos q.mutex with h0 | hpos
  · rw [event_queue_push_blocked q e b h0] at hp
    cases hp
  · cases b with
    | false =>
      rw [event_queue_push_no_node q e hpos] at hp
      injection hp with hp
      injection hp with hp
      subst hp
      exact hsz
    | true =>
      obtain ⟨pre, post, hl, -, -, hpush⟩ := event_queue_push_ret q e hpos
      rw [hpush] at hp
      injection hp with hp
      injection hp with hp
      subst hp
      simp only [List.length_append, List.length_cons]
      rw [hl, List.length_append] at hsz
      by_cases hnil : q.head = []
      · rw [if_pos hnil]
        rw [hl] at hnil
        have hpp : pre = [] ∧ post = [] := by simpa using hnil
        simp [hpp.1, hpp.2]
      · rw [if_neg hnil, hsz]
        push_cast
        ring

/-- A pop keeps `size` equal to the number of nodes. -/
theorem event_queue_pop_size {q q' : EventQueue} {ev : Event} {r : Int}
    {ev' : Option Event} (hsz : q.size = q.head.length)
    (hp : event_queue_pop (some q) (some ev) = (r, some q', ev')) :
    q'.size = q'.head.length := by
  obtain ⟨hd, sz, m⟩ := q
  cases hd with
  | nil =>
    simp [event_queue_pop] at hp
    obtain ⟨-, rfl, -⟩ := hp
    exact hsz
  | cons c cs =>
    simp [event_queue_pop] at hp
    obtain ⟨-, rfl, -⟩ := hp
    simp only [List.length_cons] at hsz
    simp only
    push_cast at hsz
    omega

theorem Steps.sorted {q q' : EventQueue} (h : Steps q q') (hs : PrioritySorted q.head) :
    PrioritySorted q'.head := by
  induction h with
  | refl => exact hs
  | push q1 e b q2 _ hp ih => exact event_queue_push_sorted ih hp
  | pop q1 ev r q2 ev' _ hp ih => exact event_queue_pop_sorted ih hp

theorem Steps.size_eq {q q' : EventQueue} (h : Steps q q') (hsz : q.size = q.head.length) :
    q'.size = q'.head.length := by
  induction h with
  | refl => exact hsz
  | push q1 e b q2 _ hp ih => exact event_queue_push_size ih hp
  | pop q1 ev r q2 ev' _ hp ih => exact event_queue_pop_size ih hp

/-- The reachable queues are those reached from the freshly initialised one. -/
theorem Reachable.steps {q : EventQueue} (h : Reachable q) : Steps event_queue_init q := by
  induction h with
  | init => exact Steps.refl _
  | push q e b q' _ hp ih => exact Steps.push _ q e b q' ih hp
  | pop q ev r q' ev' _ hp ih => exact Steps.pop _ q ev r q' ev' ih hp

/-- C3: on every non-empty queue whose node list is non-increasing in priority, of
any length, `event_queue_pop` returns 1, writes the head node's event to `*event`
and leaves the remaining nodes in their order, and that event's priority is `>=`
the priority of every remaining event. The ordering is kept by every push that
gets the semaphore and its node, by every queue reached from there through any
sequence of pushes and pops, and it holds of every queue reachable from
`event_queue_init`. -/
theorem event_queue_pop_head (q : EventQueue) (ev : Event)
    (hs : q.head.Pairwise (fun a b => b.priority ≤ a.priority)) (hne : q.head ≠ []) :
    (∃ e rest, q.head = e :: rest ∧
      event_queue_pop (some q) (some ev) =
        (1, some { head := rest, size := q.size - 1, mutex := q.mutex + 1 }, some e) ∧
      (∀ e' ∈ rest, e'.priority ≤ e.priority) ∧
      rest.Pairwise (fun a b => b.priority ≤ a.priority)) ∧
    (0 < q.mutex → ∀ e0, ∃ q', event_queue_push (some q) (some e0) true = .ret (some q') ∧
      q'.head.Pairwise (fun a b => b.priority ≤ a.priority) ∧
      q'.head.length = q.head.length + 1) ∧
    (∀ q', Steps q q' → q'.head.Pairwise (fun a b => b.priority ≤ a.priority)) ∧
    (∀ q0, Reachable q0 → q0.head.Pairwise (fun a b => b.priority ≤ a.priority)) := by
  refine ⟨?_, ?_, fun q' h => h.sorted hs, fun q0 h => h.inv.sorted⟩
  · obtain ⟨hd, sz, m⟩ := q
    cases hd with
    | nil => exact absurd rfl hne
    | cons c cs =>
      exact ⟨c, cs, rfl, by simp [event_queue_pop, sem_post],
        (List.pairwise_cons.mp hs).1, (List.pairwise_cons.mp hs).2⟩
  · intro hpos e0
    obtain ⟨pre, post, hl, hpre, hpost, hpush⟩ := event_queue_push_ret q e0 hpos
    refine ⟨_, hpush, PrioritySorted.insert (hl ▸ hs) hpre hpost, ?_⟩
    simp only [List.length_append, List.length_cons]
    rw [hl, List.length_append]
    omega

theorem event_queue_pop_head_witness :
    [event_init none none .STATUS_EMPTY 3 0, event_init none none .STATUS_OK 3 1,
      event_init none none .STATUS_CAPACITY 1 2].Pairwise
        (fun a b => b.priority ≤ a.priority) ∧
    [event_init none none .STATUS_EMPTY 3 0, event_init none none .STATUS_OK 3 1,
      event_init none none .STATUS_CAPACITY 1 2] ≠ [] ∧
    ∃ e rest,
      [event_init none none .STATUS_EMPTY 3 0, event_init none none .STATUS_OK 3 1,
        event_init none none .STATUS_CAPACITY 1 2] = e :: rest ∧
      event_queue_pop
        (some { head := [event_init none none .STATUS_EMPTY 3 0,
                  event_init none none .STATUS_OK 3 1,
                  event_init none none .STATUS_CAPACITY 1 2],
                size := 3, mutex := 1 })
        (some (event_init none none .STATUS_OK 0 0)) =
        (1, some { head := rest, size := 3 - 1, mutex := 1 + 1 }, some e) ∧
      (∀ e' ∈ rest, e'.priority ≤ e.priority) ∧
      rest.Pairwise (fun a b => b.priority ≤ a.priority) :=
  ⟨by decide, by simp,
   (event_queue_pop_head
     { head := [event_init none none .STATUS_EMPTY 3 0,
         event_init none none .STATUS_OK 3 1,
         event_init none none .STATUS_CAPACITY 1 2],
       size := 3, mutex := 1 }
     (event_init none none .STATUS_OK 0 0) (by decide) (by simp)).1⟩

/-- C5 (code evaluated at the failing input): the push into a freshly initialised
queue takes the semaphore and returns without posting it, so the count is 0 and not
1 after the call; `event_queue_pop` never takes the semaphore and posts it, so a
pop on a queue whose count is 1 leaves the count at 2. -/
theorem event_queue_push_keeps_lock (e ev : Event) :
    event_queue_init.mutex = 1 ∧
    event_queue_push (some event_queue_init) (some e) true =
      .ret (some { head := [e], size := 1, mutex := 0 }) ∧
    event_queue_pop (some { head := [e], size := 1, mutex := 1 }) (some ev) =
      (1, some { head := [], size := 0, mutex := 2 }, some e) := by
  refine ⟨rfl, by simp [event_queue_push, event_queue_init, sem_wait], ?_⟩
  simp [event_queue_pop, sem_post]

/-- C6: misuse is a no-op. A push with a null queue or a null event returns and
leaves the queue (list, size, semaphore) as it was; a pop with a null queue or a
null event pointer returns 0, leaves the queue as it was and writes no event. -/
theorem event_queue_misuse_noop (q : Option EventQueue) (e : Option Event) (b : Bool) :
    event_queue_push none e b = .ret none ∧
    event_queue_push q none b = .ret q ∧
    event_queue_pop none e = (0, none, e) ∧
    event_queue_pop q none = (0, q, none) := by
  refine ⟨by simp [event_queue_push], ?_, by simp [event_queue_pop], ?_⟩
  · cases q <;> simp [event_queue_push]
  · cases q <;> simp [event_queue_pop]

/-! ## System conversion and storage: supporting lemmas -/

theorem World.setResource_same (w : World) (a : Nat) (r : Resource) :
    (w.setResource a r).resources a = r := by
  simp [World.setResource]

theorem World.usleep_resources (w : World) (us : Int) :
    (w.usleep us).resources = w.resources := rfl

/-- The request fits: the resource is debited and the conversion goes through. -/
theorem system_consume_ok (system : System) (w : World) (r : Nat)
    (hres : system.consumed.resource = some r)
    (h : system.consumed.amount ≤ (w.resources r).amount) :
    system_consume system w =
      (.STATUS_OK, w.setResource r
        { w.resources r with amount := (w.resources r).amount - system.consumed.amount }) := by
  simp [system_consume, hres, h]

/-- The request does not fit: nothing is written. -/
theorem system_consume_short (system : System) (w : World) (r : Nat)
    (hres : system.consumed.resource = some r)
    (h : ¬ system.consumed.amount ≤ (w.resources r).amount) :
    system_consume system w =
      (if (w.resources r).amount = 0 then .STATUS_EMPTY else .STATUS_INSUFFICIENT, w) := by
  simp [system_consume, hres, h]

theorem system_convert_short (system : System) (w : World) (r : Nat)
    (hres : system.consumed.resource = some r)
    (h : ¬ system.consumed.amount ≤ (w.resources r).amount) :
    system_convert system w =
      (if (w.resources r).amount = 0 then .STATUS_EMPTY else .STATUS_INSUFFICIENT,
        system, w) := by
  unfold system_convert
  rw [system_consume_short system w r hres h]
  by_cases hz : (w.resources r).amount = 0 <;> simp [hz]

theorem system_convert_ok (system : System) (w : World) (r : Nat)
    (hres : system.consumed.resource = some r)
    (h : system.consumed.amount ≤ (w.resources r).amount) :
    (system_convert system w).1 = .STATUS_OK ∧
    (system_convert system w).2.2.resources =
      (w.setResource r
        { w.resources r with amount := (w.resources r).amount - system.consumed.amount }).resources := by
  unfold system_convert
  rw [system_consume_ok system w r hres h]
  cases hp : system.produced.resource <;>
    simp [system_simulate_process_time, World.usleep]

/-! ## System conversion and storage: the claims -/

/-- C7: with a non-null consumed resource holding `c` and a requested amount `a`,
`system_convert` returns `STATUS_OK` with the resource at `c - a` if and only if
`a <= c`; otherwise the resources are unchanged and the status is `STATUS_EMPTY` when
`c = 0` and `STATUS_INSUFFICIENT` when `c` is positive (and less than `a`). -/
theorem system_convert_consume (system : System) (w : World) (r : Nat)
    (hres : system.consumed.resource = some r) :
    (((system_convert system w).1 = .STATUS_OK ∧
        ((system_convert system w).2.2.resources r).amount =
          (w.resources r).amount - system.consumed.amount) ↔
      system.consumed.amount ≤ (w.resources r).amount) ∧
    (¬ system.consumed.amount ≤ (w.resources r).amount →
      (system_convert system w).2.2 = w ∧
      ((w.resources r).amount = 0 → (system_convert system w).1 = .STATUS_EMPTY) ∧
      (0 < (w.resources r).amount → (system_convert system w).1 = .STATUS_INSUFFICIENT)) := by
  by_cases h : system.consumed.amount ≤ (w.resources r).amount
  · obtain ⟨h1, h2⟩ := system_convert_ok system w r hres h
    refine ⟨⟨fun _ => h, fun _ => ⟨h1, ?_⟩⟩, fun hn => absurd h hn⟩
    rw [h2, World.setResource_same]
  · have hc := system_convert_short system w r hres h
    refine ⟨⟨?_, fun h' => absurd h' h⟩, fun _ => ⟨by rw [hc], ?_, ?_⟩⟩
    · rintro ⟨hok, -⟩
      rw [hc] at hok
      by_cases hz : (w.resources r).amount = 0 <;> simp [hz] at hok
    · intro hz
      rw [hc]
      simp [hz]
    · intro hpos
      rw [hc]
      have hz : (w.resources r).amount ≠ 0 := by omega
      simp [hz]

theorem system_convert_consume_witness :
    (({ consumed := ⟨some 0, 3⟩, produced := ⟨some 1, 5⟩, processing_time := 4,
        event_queue := none, status := .STANDARD, amount_stored := 0 } : System).consumed.resource
      = some 0) ∧
    ((((system_convert
          { consumed := ⟨some 0, 3⟩, produced := ⟨some 1, 5⟩, processing_time := 4,
            event_queue := none, status := .STANDARD, amount_stored := 0 }
          { resources := fun _ => ⟨8, 10⟩, slept := [] }).1 = .STATUS_OK ∧
        ((system_convert
          { consumed := ⟨some 0, 3⟩, produced := ⟨some 1, 5⟩, processing_time := 4,
            event_queue := none, status := .STANDARD, amount_stored := 0 }
          { resources := fun _ => ⟨8, 10⟩, slept := [] }).2.2.resources 0).amount =
          (8 : Int) - 3) ↔ (3 : Int) ≤ 8) ∧
     (¬ (3 : Int) ≤ 8 →
       (system_convert
          { consumed := ⟨some 0, 3⟩, produced := ⟨some 1, 5⟩, processing_time := 4,
            event_queue := none, status := .STANDARD, amount_stored := 0 }
          { resources := fun _ => ⟨8, 10⟩, slept := [] }).2.2 =
          { resources := fun _ => ⟨8, 10⟩, slept := [] } ∧
       ((8 : Int) = 0 → (system_convert
          { consumed := ⟨some 0, 3⟩, produced := ⟨some 1, 5⟩, processing_time := 4,
            event_queue := none, status := .STANDARD, amount_stored := 0 }
          { resources := fun _ => ⟨8, 10⟩, slept := [] }).1 = .STATUS_EMPTY) ∧
       ((0 : Int) < 8 → (system_convert
          { consumed := ⟨some 0, 3⟩, produced := ⟨some 1, 5⟩, processing_time := 4,
            event_queue := none, status := .STANDARD, amount_stored := 0 }
          { resources := fun _ => ⟨8, 10⟩, slept := [] }).1 = .STATUS_INSUFFICIENT))) :=
  ⟨rfl,
   system_convert_consume
     { consumed := ⟨some 0, 3⟩, produced := ⟨some 1, 5⟩, processing_time := 4,
       event_queue := none, status := .STANDARD, amount_stored := 0 }
     { resources := fun _ => ⟨8, 10⟩, slept := [] } 0 rfl⟩

/-- C8 as stated fails: a request of 0 units on a resource holding 0 is granted
(`STATUS_OK`, not `STATUS_EMPTY`), and a request of -3 units is granted too and
leaves the resource at 3. -/
theorem system_convert_zero_request_ok :
    ((fun _ => ⟨0, 10⟩ : Nat → Resource) 0).amount = 0 ∧
    (system_convert
        { consumed := ⟨some 0, 0⟩, produced := ⟨none, 0⟩, processing_time := 0,
          event_queue := none, status := .STANDARD, amount_stored := 0 }
        { resources := fun _ => ⟨0, 10⟩, slept := [] }).1 = .STATUS_OK ∧
    (system_convert
        { consumed := ⟨some 0, -3⟩, produced := ⟨none, 0⟩, processing_time := 0,
          event_queue := none, status := .STANDARD, amount_stored := 0 }
        { resources := fun _ => ⟨0, 10⟩, slept := [] }).1 = .STATUS_OK ∧
    ((system_convert
        { consumed := ⟨some 0, -3⟩, produced := ⟨none, 0⟩, processing_time := 0,
          event_queue := none, status := .STANDARD, amount_stored := 0 }
        { resources := fun _ => ⟨0, 10⟩, slept := [] }).2.2.resources 0).amount = 3 := by
  refine ⟨rfl, ?_, ?_, ?_⟩ <;>
    simp [system_convert, system_consume, system_simulate_process_time, World.usleep,
      World.setResource]

/-- C8 (amended): for every requested amount `consumed.amount > 0`, consuming from a
non-null resource whose amount is 0 returns `STATUS_EMPTY` and changes neither the
system nor the memory, so any number of repeated calls return `STATUS_EMPTY` each
time and the resource stays at 0. -/
theorem system_convert_empty_retry (system : System) (w : World) (r : Nat) (n : Nat)
    (hres : system.consumed.resource = some r) (hzero : (w.resources r).amount = 0)
    (hpos : 0 < system.consumed.amount) :
    system_convert system w = (.STATUS_EMPTY, system, w) ∧
    convert_repeat n system w = (List.replicate n .STATUS_EMPTY, system, w) := by
  have h1 : system_convert system w = (.STATUS_EMPTY, system, w) := by
    rw [system_convert_short system w r hres (by omega)]
    simp [hzero]
  refine ⟨h1, ?_⟩
  induction n with
  | zero => rfl
  | succ k ih => simp [convert_repeat, h1, ih, List.replicate_succ]

theorem system_convert_empty_retry_witness :
    (({ consumed := ⟨some 0, 2⟩, produced := ⟨some 1, 5⟩, processing_time := 4,
        event_queue := none, status := .STANDARD, amount_stored := 0 } : System).consumed.resource
      = some 0) ∧
    ((fun _ => ⟨0, 10⟩ : Nat → Resource) 0).amount = 0 ∧ (0 : Int) < 2 ∧
    (system_convert
        { consumed := ⟨some 0, 2⟩, produced := ⟨some 1, 5⟩, processing_time := 4,
          event_queue := none, status := .STANDARD, amount_stored := 0 }
        { resources := fun _ => ⟨0, 10⟩, slept := [] } =
      (.STATUS_EMPTY,
        { consumed := ⟨some 0, 2⟩, produced := ⟨some 1, 5⟩, processing_time := 4,
          event_queue := none, status := .STANDARD, amount_stored := 0 },
        { resources := fun _ => ⟨0, 10⟩, slept := [] }) ∧
     convert_repeat 3
        { consumed := ⟨some 0, 2⟩, produced := ⟨some 1, 5⟩, processing_time := 4,
          event_queue := none, status := .STANDARD, amount_stored := 0 }
        { resources := fun _ => ⟨0, 10⟩, slept := [] } =
      (List.replicate 3 .STATUS_EMPTY,
        { consumed := ⟨some 0, 2⟩, produced := ⟨some 1, 5⟩, processing_time := 4,
          event_queue := none, status := .STANDARD, amount_stored := 0 },
        { resources := fun _ => ⟨0, 10⟩, slept := [] })) :=
  ⟨rfl, rfl, by decide,
   system_convert_empty_retry
     { consumed := ⟨some 0, 2⟩, produced := ⟨some 1, 5⟩, processing_time := 4,
       event_queue := none, status := .STANDARD, amount_stored := 0 }
     { resources := fun _ => ⟨0, 10⟩, slept := [] } 0 3 rfl rfl (by decide)⟩

/-- C9: with a non-null produced resource whose amount is at most its capacity and
a pending `amount_stored = s > 0`, `system_store_resources` absorbs exactly
`k = min s (max_capacity - amount)`: the resource ends at `amount + k`, which is
`min max_capacity (amount + s)`, `amount_stored` ends at the leftover `s - k >= 0`,
and the result is `STATUS_CAPACITY` exactly when the leftover is positive and
`STATUS_OK` otherwise. -/
theorem system_store_resources_absorbs (system : System) (w : World) (r : Nat)
    (hres : system.produced.resource = some r)
    (hcap : (w.resources r).amount ≤ (w.resources r).max_capacity)
    (hs : 0 < system.amount_stored) :
    ((system_store_resources system w).2.2.resources r).amount =
        (w.resources r).amount +
          min system.amount_stored ((w.resources r).max_capacity - (w.resources r).amount) ∧
    ((system_store_resources system w).2.2.resources r).amount =
        min (w.resources r).max_capacity ((w.resources r).amount + system.amount_stored) ∧
    (system_store_resources system w).2.1.amount_stored =
        system.amount_stored -
          min system.amount_stored ((w.resources r).max_capacity - (w.resources r).amount) ∧
    0 ≤ (system_store_resources system w).2.1.amount_stored ∧
    ((system_store_resources system w).1 = .STATUS_CAPACITY ↔
        0 < (system_store_resources system w).2.1.amount_stored) ∧
    (¬ 0 < (system_store_resources system w).2.1.amount_stored →
        (system_store_resources system w).1 = .STATUS_OK) := by
  have hne : system.amount_stored ≠ 0 := by omega
  by_cases h1 : (w.resources r).max_capacity - (w.resources r).amount ≥ system.amount_stored
  · have hout : system_store_resources system w =
        (.STATUS_OK, { system with amount_stored := 0 },
          w.setResource r { w.resources r with
            amount := (w.resources r).amount + system.amount_stored }) := by
      simp [system_store_resources, hres, hne, h1]
    rw [hout]
    simp only [World.setResource_same]
    rw [min_eq_left h1, min_eq_right (by omega)]
    simp
  · by_cases h2 : (w.resources r).max_capacity - (w.resources r).amount > 0
    · have hleft : system.amount_stored -
          ((w.resources r).max_capacity - (w.resources r).amount) ≠ 0 := by omega
      have hout : system_store_resources system w =
          (.STATUS_CAPACITY,
            { system with amount_stored := system.amount_stored -
                ((w.resources r).max_capacity - (w.resources r).amount) },
            w.setResource r { w.resources r with
              amount := (w.resources r).amount +
                ((w.resources r).max_capacity - (w.resources r).amount) }) := by
        simp [system_store_resources, hres, hne, h1, h2, hleft]
      rw [hout]
      simp only [World.setResource_same]
      rw [min_eq_right (by omega), min_eq_left (by omega)]
      refine ⟨rfl, by omega, rfl, by omega, ?_, ?_⟩
      · simp only [true_iff]; omega
      · intro hn; omega
    · have hout : system_store_resources system w = (.STATUS_CAPACITY, system, w) := by
        simp [system_store_resources, hres, hne, h1, h2]
      rw [hout]
      simp only
      have hz : (w.resources r).max_capacity - (w.resources r).amount = 0 := by omega
      rw [hz, min_eq_right (by omega), min_eq_left (by omega)]
      refine ⟨by omega, by omega, by omega, by omega, ?_, ?_⟩
      · simp only [true_iff]; omega
      · intro hn; omega

theorem system_store_resources_absorbs_witness :
    (({ consumed := ⟨none, 0⟩, produced := ⟨some 1, 5⟩, processing_time := 0,
        event_queue := none, status := .STANDARD, amount_stored := 12 } : System).produced.resource
      = some 1) ∧
    (4 : Int) ≤ 10 ∧ (0 : Int) < 12 ∧
    (((system_store_resources
        { consumed := ⟨none, 0⟩, produced := ⟨some 1, 5⟩, processing_time := 0,
          event_queue := none, status := .STANDARD, amount_stored := 12 }
        { resources := fun _ => ⟨4, 10⟩, slept := [] }).2.2.resources 1).amount =
        (4 : Int) + min 12 (10 - 4) ∧
     ((system_store_resources
        { consumed := ⟨none, 0⟩, produced := ⟨some 1, 5⟩, processing_time := 0,
          event_queue := none, status := .STANDARD, amount_stored := 12 }
        { resources := fun _ => ⟨4, 10⟩, slept := [] }).2.2.resources 1).amount =
        min (10 : Int) (4 + 12) ∧
     (system_store_resources
        { consumed := ⟨none, 0⟩, produced := ⟨some 1, 5⟩, processing_time := 0,
          event_queue := none, status := .STANDARD, amount_stored := 12 }
        { resources := fun _ => ⟨4, 10⟩, slept := [] }).2.1.amount_stored =
        (12 : Int) - min 12 (10 - 4) ∧
     0 ≤ (system_store_resources
        { consumed := ⟨none, 0⟩, produced := ⟨some 1, 5⟩, processing_time := 0,
          event_queue := none, status := .STANDARD, amount_stored := 12 }
        { resources := fun _ => ⟨4, 10⟩, slept := [] }).2.1.amount_stored ∧
     ((system_store_resources
        { consumed := ⟨none, 0⟩, produced := ⟨some 1, 5⟩, processing_time := 0,
          event_queue := none, status := .STANDARD, amount_stored := 12 }
        { resources := fun _ => ⟨4, 10⟩, slept := [] }).1 = .STATUS_CAPACITY ↔
        0 < (system_store_resources
          { consumed := ⟨none, 0⟩, produced := ⟨some 1, 5⟩, processing_time := 0,
            event_queue := none, status := .STANDARD, amount_stored := 12 }
          { resources := fun _ => ⟨4, 10⟩, slept := [] }).2.1.amount_stored) ∧
     (¬ 0 < (system_store_resources
          { consumed := ⟨none, 0⟩, produced := ⟨some 1, 5⟩, processing_time := 0,
            event_queue := none, status := .STANDARD, amount_stored := 12 }
          { resources := fun _ => ⟨4, 10⟩, slept := [] }).2.1.amount_stored →
        (system_store_resources
          { consumed := ⟨none, 0⟩, produced := ⟨some 1, 5⟩, processing_time := 0,
            event_queue := none, status := .STANDARD, amount_stored := 12 }
          { resources := fun _ => ⟨4, 10⟩, slept := [] }).1 = .STATUS_OK)) :=
  ⟨rfl, by decide, by decide,
   system_store_resources_absorbs
     { consumed := ⟨none, 0⟩, produced := ⟨some 1, 5⟩, processing_time := 0,
       event_queue := none, status := .STANDARD, amount_stored := 12 }
     { resources := fun _ => ⟨4, 10⟩, slept := [] } 1 rfl (by decide) (by decide)⟩

/-- C10: capacity boundary. With a non-null produced resource whose amount equals its
capacity and a pending `amount_stored = s >= 0`, `system_store_resources` absorbs
nothing: the memory (so the resource's amount) and the system (so `amount_stored`,
still `s`) are unchanged, and for `s > 0` the result is `STATUS_CAPACITY`. -/
theorem system_store_resources_full (system : System) (w : World) (r : Nat)
    (hres : system.produced.resource = some r)
    (hfull : (w.resources r).amount = (w.resources r).max_capacity)
    (hs : 0 ≤ system.amount_stored) :
    (system_store_resources system w).2.2 = w ∧
    (system_store_resources system w).2.1 = system ∧
    ((system_store_resources system w).2.2.resources r).amount = (w.resources r).amount ∧
    (system_store_resources system w).2.1.amount_stored = system.amount_stored ∧
    (0 < system.amount_stored → (system_store_resources system w).1 = .STATUS_CAPACITY) := by
  by_cases hz : system.amount_stored = 0
  · have hout : system_store_resources system w =
        (.STATUS_OK, { system with amount_stored := 0 }, w) := by
      simp [system_store_resources, hres, hz]
    have hsys : ({ system with amount_stored := 0 } : System) = system := by
      cases system
      simp only at hz
      subst hz
      rfl
    rw [hout, hsys]
    exact ⟨rfl, rfl, rfl, rfl, fun h => by omega⟩
  · have h1 : ¬ (w.resources r).max_capacity - (w.resources r).amount ≥ system.amount_stored := by
      omega
    have h2 : ¬ (w.resources r).max_capacity - (w.resources r).amount > 0 := by omega
    have hout : system_store_resources system w = (.STATUS_CAPACITY, system, w) := by
      simp [system_store_resources, hres, hz, h1, h2]
    rw [hout]
    exact ⟨rfl, rfl, rfl, rfl, fun _ => rfl⟩

theorem system_store_resources_full_witness :
    (({ consumed := ⟨none, 0⟩, produced := ⟨some 1, 5⟩, processing_time := 0,
        event_queue := none, status := .STANDARD, amount_stored := 5 } : System).produced.resource
      = some 1) ∧
    (10 : Int) = 10 ∧ (0 : Int) ≤ 5 ∧
    ((system_store_resources
        { consumed := ⟨none, 0⟩, produced := ⟨some 1, 5⟩, processing_time := 0,
          event_queue := none, status := .STANDARD, amount_stored := 5 }
        { resources := fun _ => ⟨10, 10⟩, slept := [] }).2.2 =
        { resources := fun _ => ⟨10, 10⟩, slept := [] } ∧
     (system_store_resources
        { consumed := ⟨none, 0⟩, produced := ⟨some 1, 5⟩, processing_time := 0,
          event_queue := none, status := .STANDARD, amount_stored := 5 }
        { resources := fun _ => ⟨10, 10⟩, slept := [] }).2.1 =
        { consumed := ⟨none, 0⟩, produced := ⟨some 1, 5⟩, processing_time := 0,
          event_queue := none, status := .STANDARD, amount_stored := 5 } ∧
     ((system_store_resources
        { consumed := ⟨none, 0⟩, produced := ⟨some 1, 5⟩, processing_time := 0,
          event_queue := none, status := .STANDARD, amount_stored := 5 }
        { resources := fun _ => ⟨10, 10⟩, slept := [] }).2.2.resources 1).amount = 10 ∧
     (system_store_resources
        { consumed := ⟨none, 0⟩, produced := ⟨some 1, 5⟩, processing_time := 0,
          event_queue := none, status := .STANDARD, amount_stored := 5 }
        { resources := fun _ => ⟨10, 10⟩, slept := [] }).2.1.amount_stored = 5 ∧
     ((0 : Int) < 5 → (system_store_resources
        { consumed := ⟨none, 0⟩, produced := ⟨some 1, 5⟩, processing_time := 0,
          event_queue := none, status := .STANDARD, amount_stored := 5 }
        { resources := fun _ => ⟨10, 10⟩, slept := [] }).1 = .STATUS_CAPACITY)) :=
  ⟨rfl, rfl, by decide,
   system_store_resources_full
     { consumed := ⟨none, 0⟩, produced := ⟨some 1, 5⟩, processing_time := 0,
       event_queue := none, status := .STANDARD, amount_stored := 5 }
     { resources := fun _ => ⟨10, 10⟩, slept := [] } 1 rfl rfl (by decide)⟩

/-! ## The run cycle: supporting lemmas -/

theorem Machine.push_world (m : Machine) (queue : Option Nat) (event : Event) (b : Bool)
    (m1 : Machine) (h : m.push queue event b = .ret m1) : m1.world = m.world := by
  unfold Machine.push at h
  cases queue with
  | none =>
    simp only [event_queue_push] at h
    cases h
    rfl
  | some a =>
    simp only at h
    split at h
    · cases h
    · cases h; rfl
    · cases h; rfl

/-- A push through a queue pointer whose semaphore can be taken returns with the
queue at that address replaced by what `event_queue_push` made of it. -/
theorem Machine.push_some_ret (m : Machine) (a : Nat) (event : Event)
    (h : 0 < (m.queues a).mutex) :
    ∃ q', event_queue_push (some (m.queues a)) (some event) true = .ret (some q') ∧
      m.push (some a) event true =
        .ret { m with queues := fun b => if b = a then q' else m.queues b } := by
  obtain ⟨pre, post, -, -, -, hpush⟩ := event_queue_push_ret (m.queues a) event h
  exact ⟨_, hpush, by simp [Machine.push, hpush]⟩

theorem Machine.push_some_blocked (m : Machine) (a : Nat) (event : Event) (b : Bool)
    (h : (m.queues a).mutex = 0) : m.push (some a) event b = .blocked := by
  simp [Machine.push, event_queue_push_blocked (m.queues a) event b h]

/-- A failed conversion has a consumed resource and changes nothing. -/
theorem system_convert_not_ok (system : System) (w : World)
    (h : (system_convert system w).1 ≠ .STATUS_OK) :
    ∃ c, system.consumed.resource = some c ∧
      ¬ system.consumed.amount ≤ (w.resources c).amount ∧
      system_convert system w =
        (if (w.resources c).amount = 0 then .STATUS_EMPTY else .STATUS_INSUFFICIENT,
          system, w) := by
  cases hc : system.consumed.resource with
  | none =>
    exfalso
    apply h
    unfold system_convert system_consume
    rw [hc]
    cases system.produced.resource <;> rfl
  | some c =>
    refine ⟨c, rfl, ?_, ?_⟩
    · intro hle
      exact h (system_convert_ok system w c hc hle).1
    · apply system_convert_short system w c hc
      intro hle
      exact h (system_convert_ok system w c hc hle).1

/-- Whatever it returns, `system_convert` writes only `amount_stored`. -/
theorem system_convert_fields (system : System) (w : World) :
    (system_convert system w).2.1.consumed = system.consumed ∧
    (system_convert system w).2.1.produced = system.produced ∧
    (system_convert system w).2.1.event_queue = system.event_queue ∧
    (system_convert system w).2.1.status = system.status ∧
    (system_convert system w).2.1.processing_time = system.processing_time := by
  unfold system_convert
  split
  · cases system.produced.resource <;> simp
  · simp

/-- Whatever it returns, `system_store_resources` writes only `amount_stored`. -/
theorem system_store_resources_fields (system : System) (w : World) :
    (system_store_resources system w).2.1.consumed = system.consumed ∧
    (system_store_resources system w).2.1.produced = system.produced ∧
    (system_store_resources system w).2.1.event_queue = system.event_queue ∧
    (system_store_resources system w).2.1.status = system.status ∧
    (system_store_resources system w).2.1.processing_time = system.processing_time := by
  unfold system_store_resources
  cases system.produced.resource with
  | none => simp
  | some p =>
    simp only
    split
    · simp
    · split <;> split <;> (try split) <;> simp

/-- The three ways a store with a resource and a pending amount can go. -/
theorem system_store_resources_some (system : System) (w : World) (p : Nat)
    (hres : system.produced.resource = some p) (hne : system.amount_stored ≠ 0) :
    system_store_resources system w =
      if (w.resources p).max_capacity - (w.resources p).amount ≥ system.amount_stored then
        (.STATUS_OK, { system with amount_stored := 0 },
          w.setResource p { w.resources p with
            amount := (w.resources p).amount + system.amount_stored })
      else if (w.resources p).max_capacity - (w.resources p).amount > 0 then
        (.STATUS_CAPACITY,
          { system with amount_stored := system.amount_stored -
              ((w.resources p).max_capacity - (w.resources p).amount) },
          w.setResource p { w.resources p with
            amount := (w.resources p).amount +
              ((w.resources p).max_capacity - (w.resources p).amount) })
      else (.STATUS_CAPACITY, system, w) := by
  by_cases h1 : (w.resources p).max_capacity - (w.resources p).amount ≥ system.amount_stored
  · simp [system_store_resources, hres, hne, h1]
  · by_cases h2 : (w.resources p).max_capacity - (w.resources p).amount > 0
    · have hleft : system.amount_stored -
          ((w.resources p).max_capacity - (w.resources p).amount) ≠ 0 := by omega
      simp [system_store_resources, hres, hne, h1, h2, hleft]
    · simp [system_store_resources, hres, hne, h1, h2]

/-- A store that reports a problem has a produced resource that could not take the
whole pending amount, and leaves a pending amount. -/
theorem system_store_resources_not_ok (system : System) (w : World)
    (h : (system_store_resources system w).1 ≠ .STATUS_OK) :
    ∃ p, system.produced.resource = some p ∧ system.amount_stored ≠ 0 ∧
      ¬ (w.resources p).max_capacity - (w.resources p).amount ≥ system.amount_stored ∧
      (system_store_resources system w).1 = .STATUS_CAPACITY ∧
      (system_store_resources system w).2.1.amount_stored ≠ 0 := by
  cases hp : system.produced.resource with
  | none =>
    exfalso
    apply h
    simp [system_store_resources, hp]
  | some p =>
    by_cases hz : system.amount_stored = 0
    · exfalso
      apply h
      simp [system_store_resources, hp, hz]
    · have hs := system_store_resources_some system w p hp hz
      by_cases h1 : (w.resources p).max_capacity - (w.resources p).amount ≥ system.amount_stored
      · exfalso
        apply h
        rw [hs, if_pos h1]
      · refine ⟨p, rfl, hz, h1, ?_, ?_⟩
        · rw [hs, if_neg h1]
          split <;> rfl
        · rw [hs, if_neg h1]
          split
          · simp only
            omega
          · exact hz

/-- The second block of `system_run`: it returns or waits with the store done. -/
theorem system_run_store_effect (d : Defs) (self : Nat) (b : Bool) (system : System)
    (m : Machine) :
    ∃ m', (system_run_store d self b system m =
          .ret (if system.amount_stored > 0 then (system_store_resources system m.world).2.1
                else system) m' ∨
        system_run_store d self b system m =
          .blocked (if system.amount_stored > 0 then (system_store_resources system m.world).2.1
                else system) m') ∧
      m'.world.resources =
        (if system.amount_stored > 0 then (system_store_resources system m.world).2.2
          else m.world).resources := by
  by_cases hpos : system.amount_stored > 0
  · simp only [if_pos hpos]
    by_cases hok : (system_store_resources system m.world).1 = .STATUS_OK
    · refine ⟨{ m with world := (system_store_resources system m.world).2.2 }, Or.inl ?_, rfl⟩
      rcases hst : system_store_resources system m.world with ⟨st, s1, w1⟩
      rw [hst] at hok
      simp only at hok
      simp [system_run_store, hpos, hst, hok]
    · obtain ⟨p, hp, -, -, -, -⟩ := system_store_resources_not_ok system m.world hok
      have hp1 : (system_store_resources system m.world).2.1.produced.resource = some p := by
        rw [(system_store_resources_fields system m.world).2.1, hp]
      rcases hst : system_store_resources system m.world with ⟨st, s1, w1⟩
      rw [hst] at hok hp1
      simp only at hok hp1
      simp only [system_run_store, if_pos hpos, hst, ne_eq, hok, not_false_eq_true, if_true,
        hp1]
      cases hpush : ({ m with world := w1 } : Machine).push s1.event_queue
          (event_init (some self) (some p) st d.PRIORITY_LOW (w1.resources p).amount) b with
      | blocked => exact ⟨{ m with world := w1 }, Or.inr rfl, rfl⟩
      | ret m1 =>
        refine ⟨_, Or.inl rfl, ?_⟩
        have := Machine.push_world _ _ _ _ _ hpush
        simp only at this
        simp [World.usleep, this]
  · simp only [if_neg hpos]
    exact ⟨m, Or.inl (by simp [system_run_store, hpos]), rfl⟩

/-- First block of `system_run`, something pending: CONVERT is skipped. -/
theorem system_run_convert_skip (d : Defs) (self : Nat) (b : Bool) (system : System)
    (m : Machine) (hz : system.amount_stored ≠ 0) :
    system_run_convert d self b system m = .ret system m := by
  simp [system_run_convert, hz]

/-- First block of `system_run`, nothing pending and the conversion succeeds. -/
theorem system_run_convert_ok (d : Defs) (self : Nat) (b : Bool) (system : System)
    (m : Machine) (hz : system.amount_stored = 0)
    (hok : (system_convert system m.world).1 = .STATUS_OK) :
    system_run_convert d self b system m =
      .ret (system_convert system m.world).2.1
        { m with world := (system_convert system m.world).2.2 } := by
  rcases hst : system_convert system m.world with ⟨st, s1, w1⟩
  rw [hst] at hok
  simp only at hok
  simp [system_run_convert, hz, hst, hok]

/-- First block of `system_run`, nothing pending and the conversion fails: the
report is pushed through the system's queue pointer. -/
theorem system_run_convert_report (d : Defs) (self : Nat) (b : Bool) (system : System)
    (m : Machine) (hz : system.amount_stored = 0)
    (hnok : (system_convert system m.world).1 ≠ .STATUS_OK) :
    ∃ c, system.consumed.resource = some c ∧
      ¬ system.consumed.amount ≤ (m.world.resources c).amount ∧
      system_run_convert d self b system m =
        match m.push system.event_queue
            (event_init (some self) (some c)
              (if (m.world.resources c).amount = 0 then .STATUS_EMPTY
                else .STATUS_INSUFFICIENT)
              d.PRIORITY_HIGH (m.world.resources c).amount) b with
        | .blocked => .blocked system m
        | .ret m1 =>
          .ret system { m1 with world := m1.world.usleep (d.SYSTEM_WAIT_TIME * 1000) } := by
  obtain ⟨c, hc, hlt, hconv⟩ := system_convert_not_ok system m.world hnok
  refine ⟨c, hc, hlt, ?_⟩
  rw [hconv] at hnok
  simp only at hnok
  simp only [system_run_convert, if_pos hz, hconv, ne_eq, hnok, not_false_eq_true,
    if_true, hc]

/-- Second block of `system_run`, nothing pending: STORE is skipped. -/
theorem system_run_store_skip (d : Defs) (self : Nat) (b : Bool) (system : System)
    (m : Machine) (hz : ¬ system.amount_stored > 0) :
    system_run_store d self b system m = .ret system m := by
  simp [system_run_store, hz]

/-- One cycle never reads through a null resource pointer: it returns or waits, with
the system record and the resources given by `cycle_effect`. -/
theorem system_run_effect (d : Defs) (self : Nat) (b : Bool) (system : System)
    (m : Machine) :
    ∃ m', (system_run d self b system m = .ret (cycle_effect system m.world).1 m' ∨
        system_run d self b system m = .blocked (cycle_effect system m.world).1 m') ∧
      m'.world.resources = (cycle_effect system m.world).2 := by
  by_cases hz : system.amount_stored = 0
  · by_cases hok : (system_convert system m.world).1 = .STATUS_OK
    · have h1 := system_run_convert_ok d self b system m hz hok
      obtain ⟨m2, h2, hr2⟩ := system_run_store_effect d self b
        (system_convert system m.world).2.1
        { m with world := (system_convert system m.world).2.2 }
      refine ⟨m2, ?_, ?_⟩
      · unfold system_run
        rw [h1]
        simp only [cycle_effect, if_pos hz]
        rcases h2 with h2 | h2
        · left
          rw [h2]
          congr 1
          split <;> rfl
        · right
          rw [h2]
          congr 1
          split <;> rfl
      · rw [hr2]
        simp only [cycle_effect, if_pos hz]
        split <;> rfl
    · obtain ⟨c, hc, hlt, h1⟩ := system_run_convert_report d self b system m hz hok
      have hconv := system_convert_short system m.world c hc hlt
      have hce : cycle_effect system m.world = (system, m.world.resources) := by
        have hz' : ¬ system.amount_stored > 0 := by omega
        simp only [cycle_effect, if_pos hz, hconv, if_neg hz']
      rw [hce]
      unfold system_run
      rw [h1]
      cases hpush : m.push system.event_queue
          (event_init (some self) (some c)
            (if (m.world.resources c).amount = 0 then .STATUS_EMPTY
              else .STATUS_INSUFFICIENT)
            d.PRIORITY_HIGH (m.world.resources c).amount) b with
      | blocked => exact ⟨m, Or.inr rfl, rfl⟩
      | ret m1 =>
        refine ⟨{ m1 with world := m1.world.usleep (d.SYSTEM_WAIT_TIME * 1000) },
          Or.inl ?_, ?_⟩
        · simp only
          exact system_run_store_skip d self b system _ (by omega)
        · have := Machine.push_world _ _ _ _ _ hpush
          simp [World.usleep, this]
  · have h1 := system_run_convert_skip d self b system m hz
    obtain ⟨m2, h2, hr2⟩ := system_run_store_effect d self b system m
    refine ⟨m2, ?_, ?_⟩
    · unfold system_run
      rw [h1]
      simp only [cycle_effect, if_neg hz]
      rcases h2 with h2 | h2
      · left
        rw [h2]
        congr 1
        split <;> rfl
      · right
        rw [h2]
        congr 1
        split <;> rfl
    · rw [hr2]
      simp only [cycle_effect, if_neg hz]
      split <;> rfl

theorem system_convert_resources_ok (system : System) (w : World)
    (hc : 0 ≤ system.consumed.amount) (hok : ResourcesOK w.resources) :
    ResourcesOK (system_convert system w).2.2.resources := by
  by_cases hs : (system_convert system w).1 = .STATUS_OK
  · cases hres : system.consumed.resource with
    | none =>
      have : (system_convert system w).2.2.resources = w.resources := by
        unfold system_convert system_consume
        rw [hres]
        cases system.produced.resource <;> rfl
      rw [this]
      exact hok
    | some c =>
      by_cases hle : system.consumed.amount ≤ (w.resources c).amount
      · rw [(system_convert_ok system w c hres hle).2]
        intro a
        have ha := hok a
        have hcc := hok c
        by_cases hac : a = c
        · subst hac
          simp only [World.setResource, if_true]
          constructor <;> omega
        · simp only [World.setResource, if_neg hac]
          exact ha
      · rw [system_convert_short system w c hres hle]
        exact hok
  · obtain ⟨c, -, -, hconv⟩ := system_convert_not_ok system w hs
    rw [hconv]
    exact hok

theorem system_store_resources_ok (system : System) (w : World)
    (hs : 0 < system.amount_stored) (hok : ResourcesOK w.resources) :
    ResourcesOK (system_store_resources system w).2.2.resources := by
  cases hres : system.produced.resource with
  | none =>
    have : system_store_resources system w = (.STATUS_OK, { system with amount_stored := 0 }, w) := by
      simp [system_store_resources, hres]
    rw [this]
    exact hok
  | some p =>
    rw [system_store_resources_some system w p hres (by omega)]
    have hp := hok p
    split
    · intro a
      by_cases hap : a = p
      · subst hap
        simp only [World.setResource, if_true]
        constructor <;> omega
      · simp only [World.setResource, if_neg hap]
        exact hok a
    · split
      · intro a
        by_cases hap : a = p
        · subst hap
          simp only [World.setResource, if_true]
          constructor <;> omega
        · simp only [World.setResource, if_neg hap]
          exact hok a
      · exact hok

theorem cycle_effect_resources_ok (system : System) (w : World)
    (hc : 0 ≤ system.consumed.amount) (hok : ResourcesOK w.resources) :
    ResourcesOK (cycle_effect system w).2 := by
  unfold cycle_effect
  simp only
  by_cases hz : system.amount_stored = 0
  · simp only [if_pos hz]
    have h1 := system_convert_resources_ok system w hc hok
    split
    · rename_i hpos
      exact system_store_resources_ok _ _ hpos h1
    · exact h1
  · simp only [if_neg hz]
    split
    · rename_i hpos
      exact system_store_resources_ok _ _ hpos hok
    · exact hok

theorem Cycles.resources_ok {d : Defs} {m m' : Machine} (h : Cycles d m m')
    (hok : ResourcesOK m.world.resources) : ResourcesOK m'.world.resources := by
  induction h with
  | refl => exact hok
  | cycle m1 m2 self b system system' _ hc hrun ih =>
    obtain ⟨m3, hor, hres⟩ := system_run_effect d self b system m1
    have hm : m2 = m3 := by
      rcases hor with h | h <;> rw [h] at hrun <;> simp [Run.state] at hrun <;> exact hrun.2.symm
    rw [hm, hres]
    exact cycle_effect_resources_ok system m1.world hc ih
  | queue m1 m2 _ hw ih =>
    rw [hw]
    exact ih

/-! ## The run cycle: the claims -/

/-- C11: resource invariant. For every system that consumes a non-negative amount
(also one whose consumed and produced resource are the same) and every memory in
which every resource satisfies `0 <= amount <= max_capacity`, one `system_run` cycle
ends (returned, or waiting in its push) in a memory where every resource still
satisfies it; hence it holds after any sequence of cycles of any such systems. -/
theorem system_run_resources_ok (d : Defs) (self : Nat) (malloc_ok : Bool)
    (system : System) (m : Machine) (hc : 0 ≤ system.consumed.amount)
    (hok : ResourcesOK m.world.resources) :
    (∃ system' m', (system_run d self malloc_ok system m).state = some (system', m') ∧
      ResourcesOK m'.world.resources) ∧
    (∀ m', Cycles d m m' → ResourcesOK m'.world.resources) := by
  refine ⟨?_, fun m' h => h.resources_ok hok⟩
  obtain ⟨m', hor, hres⟩ := system_run_effect d self malloc_ok system m
  refine ⟨(cycle_effect system m.world).1, m', ?_, ?_⟩
  · rcases hor with h | h <;> rw [h] <;> rfl
  · rw [hres]
    exact cycle_effect_resources_ok system m.world hc hok

theorem system_run_resources_ok_witness :
    (0 : Int) ≤ 3 ∧ ResourcesOK (fun _ => ⟨8, 10⟩) ∧
    ((∃ system' m',
      (system_run ⟨2, 1, 100⟩ 0 true
        { consumed := ⟨some 4, 3⟩, produced := ⟨some 4, 7⟩, processing_time := 2,
          event_queue := some 0, status := .STANDARD, amount_stored := 0 }
        { world := { resources := fun _ => ⟨8, 10⟩, slept := [] },
          queues := fun _ => event_queue_init }).state = some (system', m') ∧
      ResourcesOK m'.world.resources) ∧
    (∀ m', Cycles ⟨2, 1, 100⟩
        { world := { resources := fun _ => ⟨8, 10⟩, slept := [] },
          queues := fun _ => event_queue_init } m' →
      ResourcesOK m'.world.resources)) :=
  ⟨by decide, fun _ => ⟨by simp, by simp⟩,
   system_run_resources_ok ⟨2, 1, 100⟩ 0 true
     { consumed := ⟨some 4, 3⟩, produced := ⟨some 4, 7⟩, processing_time := 2,
       event_queue := some 0, status := .STANDARD, amount_stored := 0 }
     { world := { resources := fun _ => ⟨8, 10⟩, slept := [] },
       queues := fun _ => event_queue_init }
     (by decide) (fun _ => ⟨by simp, by simp⟩)⟩

/-- A conversion that is granted: the whole result. -/
theorem system_convert_ok_full (system : System) (w : World) (c : Nat)
    (hres : system.consumed.resource = some c)
    (h : system.consumed.amount ≤ (w.resources c).amount) :
    system_convert system w =
      (.STATUS_OK,
        { system with amount_stored :=
            match system.produced.resource with
            | some _ => system.amount_stored + system.produced.amount
            | none => 0 },
        system_simulate_process_time system (w.setResource c
          { w.resources c with amount := (w.resources c).amount - system.consumed.amount })) := by
  unfold system_convert
  rw [system_consume_ok system w c hres h]
  cases system.produced.resource <;> rfl

theorem system_store_resources_conservation (system : System) (w : World) (p : Nat)
    (hres : system.produced.resource = some p) (hpos : 0 < system.amount_stored) :
    ((system_store_resources system w).2.2.resources p).amount +
        (system_store_resources system w).2.1.amount_stored =
      (w.resources p).amount + system.amount_stored ∧
    ∀ x, x ≠ p → (system_store_resources system w).2.2.resources x = w.resources x := by
  rw [system_store_resources_some system w p hres (by omega)]
  split
  · refine ⟨by simp [World.setResource], fun x hx => by simp [World.setResource, hx]⟩
  · split
    · refine ⟨by simp [World.setResource]; omega, fun x hx => by simp [World.setResource, hx]⟩
    · exact ⟨rfl, fun _ _ => rfl⟩

theorem cycle_effect_conservation (system : System) (w : World) (C P : Nat)
    (hC : system.consumed.resource = some C) (hP : system.produced.resource = some P)
    (hne : C ≠ P) :
    ((cycle_effect system w).2 C).amount = (w.resources C).amount - cycle_consumed system w ∧
    ((cycle_effect system w).2 P).amount + (cycle_effect system w).1.amount_stored =
      (w.resources P).amount + system.amount_stored + cycle_credited system w ∧
    ∀ x, x ≠ C → x ≠ P → (cycle_effect system w).2 x = w.resources x := by
  by_cases hz : system.amount_stored = 0
  · by_cases hle : system.consumed.amount ≤ (w.resources C).amount
    · have hfull := system_convert_ok_full system w C hC hle
      have hst : (system_convert system w).1 = .STATUS_OK := by rw [hfull]
      have hcons : cycle_consumed system w = system.consumed.amount := by
        simp [cycle_consumed, hz, hst]
      have hcred : cycle_credited system w = system.produced.amount := by
        simp [cycle_credited, hz, hst]
      rw [hcons, hcred]
      by_cases hpos : system.produced.amount > 0
      · have hP1 : (system_convert system w).2.1.produced.resource = some P := by
          rw [(system_convert_fields system w).2.1, hP]
        have hs1 : (system_convert system w).2.1.amount_stored = system.produced.amount := by
          rw [hfull]; simp [hP, hz]
        have hcv := system_store_resources_conservation (system_convert system w).2.1
          (system_convert system w).2.2 P hP1 (by rw [hs1]; exact hpos)
        have hce : cycle_effect system w =
            ((system_store_resources (system_convert system w).2.1
                (system_convert system w).2.2).2.1,
              (system_store_resources (system_convert system w).2.1
                (system_convert system w).2.2).2.2.resources) := by
          simp only [cycle_effect, if_pos hz]
          rw [if_pos (by rw [hs1]; exact hpos)]
        rw [hce]
        simp only
        have hw1 : ∀ x, (system_convert system w).2.2.resources x =
            if x = C then { w.resources C with
              amount := (w.resources C).amount - system.consumed.amount } else w.resources x := by
          intro x
          rw [hfull]
          rfl
        refine ⟨?_, ?_, ?_⟩
        · rw [hcv.2 C hne, hw1 C]
          simp
        · rw [hcv.1, hs1, hw1 P, if_neg (Ne.symm hne), hz]
          ring
        · intro x hxC hxP
          rw [hcv.2 x hxP, hw1 x, if_neg hxC]
      · have hs1 : (system_convert system w).2.1.amount_stored = system.produced.amount := by
          rw [hfull]; simp [hP, hz]
        have hce : cycle_effect system w =
            ((system_convert system w).2.1, (system_convert system w).2.2.resources) := by
          simp only [cycle_effect, if_pos hz]
          rw [if_neg (by rw [hs1]; exact hpos)]
        rw [hce]
        simp only
        have hw1 : ∀ x, (system_convert system w).2.2.resources x =
            if x = C then { w.resources C with
              amount := (w.resources C).amount - system.consumed.amount } else w.resources x := by
          intro x
          rw [hfull]
          rfl
        refine ⟨?_, ?_, ?_⟩
        · rw [hw1 C]
          simp
        · rw [hs1, hw1 P, if_neg (Ne.symm hne), hz]
          ring
        · intro x hxC _
          rw [hw1 x, if_neg hxC]
    · have hconv := system_convert_short system w C hC hle
      have hst : (system_convert system w).1 ≠ .STATUS_OK := by
        rw [hconv]
        split <;> simp
      have hcons : cycle_consumed system w = 0 := by simp [cycle_consumed, hst]
      have hcred : cycle_credited system w = 0 := by simp [cycle_credited, hst]
      have hce : cycle_effect system w = (system, w.resources) := by
        have hz' : ¬ system.amount_stored > 0 := by omega
        simp only [cycle_effect, if_pos hz, hconv, if_neg hz']
      rw [hce, hcons, hcred]
      exact ⟨by simp, by simp, fun _ _ _ => rfl⟩
  · have hcons : cycle_consumed system w = 0 := by simp [cycle_consumed, hz]
    have hcred : cycle_credited system w = 0 := by simp [cycle_credited, hz]
    rw [hcons, hcred]
    by_cases hpos : system.amount_stored > 0
    · have hcv := system_store_resources_conservation system w P hP hpos
      have hce : cycle_effect system w =
          ((system_store_resources system w).2.1,
            (system_store_resources system w).2.2.resources) := by
        simp only [cycle_effect, if_neg hz, if_pos hpos]
      rw [hce]
      simp only
      refine ⟨?_, ?_, ?_⟩
      · rw [hcv.2 C hne]
        simp
      · rw [hcv.1]
        ring
      · intro x _ hxP
        exact hcv.2 x hxP
    · have hce : cycle_effect system w = (system, w.resources) := by
        simp only [cycle_effect, if_neg hz, if_neg hpos]
      rw [hce]
      exact ⟨by simp, by simp, fun _ _ _ => rfl⟩

theorem Ledger.balance {d : Defs} {m m' : Machine} {consumed absorbed : Nat → Int}
    (h : Ledger d m m' consumed absorbed) (x : Nat) :
    (m.world.resources x).amount - (m'.world.resources x).amount =
      consumed x - absorbed x := by
  induction h with
  | start => simp
  | cycle m1 m2 consumed absorbed self b system system' C P _ hC hP hne hrun ih =>
    obtain ⟨m3, hor, hres⟩ := system_run_effect d self b system m1
    have hst : system' = (cycle_effect system m1.world).1 ∧ m2 = m3 := by
      rcases hor with h | h <;> rw [h] at hrun <;> simp [Run.state] at hrun <;>
        exact ⟨hrun.1.symm, hrun.2.symm⟩
    obtain ⟨hs', hm⟩ := hst
    obtain ⟨h1, h2, h3⟩ := cycle_effect_conservation system m1.world C P hC hP hne
    rw [hm, hres]
    simp only [cycle_absorbed, hs']
    by_cases hxC : x = C
    · subst hxC
      rw [if_pos rfl, if_neg hne, h1]
      omega
    · by_cases hxP : x = P
      · subst hxP
        rw [if_neg hxC, if_pos rfl]
        omega
      · rw [if_neg hxC, if_neg hxP, h3 x hxC hxP]
        omega
  | queue m1 m2 consumed absorbed _ hw ih =>
    rw [hw]
    exact ih

/-- C12: conservation. For a system with distinct non-null consumed resource `C` and
produced resource `P`, one `system_run` cycle (returned, or waiting in its push)
lowers `C.amount` by `consumed.amount` when CONVERT ran and returned `STATUS_OK` and
leaves it unchanged otherwise, and `P.amount + amount_stored` grows by
`produced.amount` when CONVERT ran and returned `STATUS_OK` and by 0 otherwise; so
over any sequence of such cycles, for each resource, initial amount minus final
amount is the total consumed from it minus the total absorbed into it. -/
theorem system_run_conservation (d : Defs) (self : Nat) (malloc_ok : Bool)
    (system : System) (m : Machine) (C P : Nat)
    (hC : system.consumed.resource = some C) (hP : system.produced.resource = some P)
    (hne : C ≠ P) :
    (∃ system' m', (system_run d self malloc_ok system m).state = some (system', m') ∧
      (m'.world.resources C).amount =
        (m.world.resources C).amount -
          (if system.amount_stored = 0 ∧ (system_convert system m.world).1 = .STATUS_OK
            then system.consumed.amount else 0) ∧
      (m'.world.resources P).amount + system'.amount_stored =
        (m.world.resources P).amount + system.amount_stored +
          (if system.amount_stored = 0 ∧ (system_convert system m.world).1 = .STATUS_OK
            then system.produced.amount else 0)) ∧
    (∀ m' consumed absorbed, Ledger d m m' consumed absorbed →
      ∀ x, (m.world.resources x).amount - (m'.world.resources x).amount =
        consumed x - absorbed x) := by
  refine ⟨?_, fun m' consumed absorbed h x => h.balance x⟩
  obtain ⟨m', hor, hres⟩ := system_run_effect d self malloc_ok system m
  obtain ⟨h1, h2, -⟩ := cycle_effect_conservation system m.world C P hC hP hne
  refine ⟨(cycle_effect system m.world).1, m', ?_, ?_, ?_⟩
  · rcases hor with h | h <;> rw [h] <;> rfl
  · rw [hres, h1]
    rfl
  · rw [hres, h2]
    rfl

theorem system_run_conservation_witness :
    (({ consumed := ⟨some 0, 3⟩, produced := ⟨some 1, 7⟩, processing_time := 2,
        event_queue := some 0, status := .STANDARD, amount_stored := 0 } : System).consumed.resource
      = some 0) ∧
    (({ consumed := ⟨some 0, 3⟩, produced := ⟨some 1, 7⟩, processing_time := 2,
        event_queue := some 0, status := .STANDARD, amount_stored := 0 } : System).produced.resource
      = some 1) ∧
    (0 : Nat) ≠ 1 ∧
    ∃ system' m',
      (system_run ⟨2, 1, 100⟩ 5 true
        { consumed := ⟨some 0, 3⟩, produced := ⟨some 1, 7⟩, processing_time := 2,
          event_queue := some 0, status := .STANDARD, amount_stored := 0 }
        { world := { resources := fun _ => ⟨8, 10⟩, slept := [] },
          queues := fun _ => event_queue_init }).state = some (system', m') ∧
      (m'.world.resources 0).amount =
        (8 : Int) -
          (if (0 : Int) = 0 ∧ (system_convert
              { consumed := ⟨some 0, 3⟩, produced := ⟨some 1, 7⟩, processing_time := 2,
                event_queue := some 0, status := .STANDARD, amount_stored := 0 }
              { resources := fun _ => ⟨8, 10⟩, slept := [] }).1 = .STATUS_OK
            then 3 else 0) ∧
      (m'.world.resources 1).amount + system'.amount_stored =
        (8 : Int) + 0 +
          (if (0 : Int) = 0 ∧ (system_convert
              { consumed := ⟨some 0, 3⟩, produced := ⟨some 1, 7⟩, processing_time := 2,
                event_queue := some 0, status := .STANDARD, amount_stored := 0 }
              { resources := fun _ => ⟨8, 10⟩, slept := [] }).1 = .STATUS_OK
            then 7 else 0) :=
  ⟨rfl, rfl, by decide,
   (system_run_conservation ⟨2, 1, 100⟩ 5 true
     { consumed := ⟨some 0, 3⟩, produced := ⟨some 1, 7⟩, processing_time := 2,
       event_queue := some 0, status := .STANDARD, amount_stored := 0 }
     { world := { resources := fun _ => ⟨8, 10⟩, slept := [] },
       queues := fun _ => event_queue_init } 0 1 rfl rfl (by decide)).1⟩

/-- A push through a queue pointer whose semaphore can be taken: the queue at that
address gets the event inserted, nothing else changes. -/
theorem Machine.push_some_insert (m : Machine) (a : Nat) (event : Event)
    (h : 0 < (m.queues a).mutex) :
    ∃ q' pre post,
      m.push (some a) event true =
        .ret { m with queues := fun b => if b = a then q' else m.queues b } ∧
      (m.queues a).head = pre ++ post ∧ q'.head = pre ++ event :: post ∧
      q'.size = (if (m.queues a).head = [] then 1 else (m.queues a).size + 1) := by
  obtain ⟨pre, post, hl, -, -, hpush⟩ := event_queue_push_ret (m.queues a) event h
  exact ⟨{ head := pre ++ event :: post,
            size := if (m.queues a).head = [] then 1 else (m.queues a).size + 1,
            mutex := if (m.queues a).head = [] then (m.queues a).mutex - 1
              else (m.queues a).mutex },
    pre, post, by simp only [Machine.push, hpush], hl, rfl, rfl⟩

/-- C17: `system_thread` tests `status` before every cycle. When the status is
`TERMINATE` at the test the worker returns at once, whatever the number of cycles
it could still run, with the system record and the memory (resources, sleep trace,
queues) exactly as they were; when it is not, the worker runs one `system_run`
cycle and, if that returns, comes back to the test. -/
theorem system_thread_terminate (d : Defs) (self : Nat) (malloc_ok : Bool) (fuel : Nat)
    (system : System) (m : Machine) (h : system.status = .TERMINATE) :
    system_thread d self malloc_ok fuel system m = some (.ret system m) ∧
    (∀ other : System, other.status ≠ .TERMINATE →
      system_thread d self malloc_ok (fuel + 1) other m =
        match system_run d self malloc_ok other m with
        | .ret system1 m1 => system_thread d self malloc_ok fuel system1 m1
        | r => some r) := by
  constructor
  · unfold system_thread
    simp [h]
  · intro other ho
    rw [system_thread]
    simp [ho]

theorem system_thread_terminate_witness :
    (({ consumed := ⟨some 0, 3⟩, produced := ⟨some 1, 7⟩, processing_time := 2,
        event_queue := some 0, status := .TERMINATE, amount_stored := 0 } : System).status
      = .TERMINATE) ∧
    system_thread ⟨2, 1, 100⟩ 5 true 4
        { consumed := ⟨some 0, 3⟩, produced := ⟨some 1, 7⟩, processing_time := 2,
          event_queue := some 0, status := .TERMINATE, amount_stored := 0 }
        { world := { resources := fun _ => ⟨8, 10⟩, slept := [] },
          queues := fun _ => event_queue_init } =
      some (.ret
        { consumed := ⟨some 0, 3⟩, produced := ⟨some 1, 7⟩, processing_time := 2,
          event_queue := some 0, status := .TERMINATE, amount_stored := 0 }
        { world := { resources := fun _ => ⟨8, 10⟩, slept := [] },
          queues := fun _ => event_queue_init }) :=
  ⟨rfl,
   (system_thread_terminate ⟨2, 1, 100⟩ 5 true 4
     { consumed := ⟨some 0, 3⟩, produced := ⟨some 1, 7⟩, processing_time := 2,
       event_queue := some 0, status := .TERMINATE, amount_stored := 0 }
     { world := { resources := fun _ => ⟨8, 10⟩, slept := [] },
       queues := fun _ => event_queue_init } rfl).1⟩

/-! ## The arrays: lemmas and the claim -/

theorem resource_array_add_ok (array : ResourceArray) (resource : Option Nat)
    (fresh : Nat → Option Nat) (h1 : 1 ≤ array.capacity) (h2 : array.size ≤ array.capacity) :
    ∃ a, resource_array_add array resource (some fresh) = .ok a ∧
      a.elems = array.elems ++ [resource] ∧ a.size = array.size + 1 ∧
      a.capacity = (if array.size < array.capacity then array.capacity
        else 2 * array.capacity) ∧
      a.size ≤ a.capacity ∧ 1 ≤ a.capacity := by
  have helems : ∀ (f g : Nat → Option Nat) (n : Nat), (∀ i, i < n → g i = f i) →
      g n = resource → (List.range (n + 1)).map g = (List.range n).map f ++ [resource] := by
    intro f g n hfg hn
    rw [List.range_succ, List.map_append, List.map_singleton, hn]
    congr 1
    apply List.map_congr_left
    intro i hi
    exact hfg i (List.mem_range.mp hi)
  by_cases heq : array.size = array.capacity
  · refine ⟨{ resources := fun i => if i = array.size then resource
                else if i < array.size then array.resources i else fresh i,
              size := array.size + 1, capacity := array.capacity * 2 }, ?_, ?_, rfl, ?_, ?_, ?_⟩
    · have hlt : array.size < array.capacity * 2 := by omega
      simp [resource_array_add, heq, hlt]
      omega
    · apply helems
      · intro i hi
        have : i ≠ array.size := by omega
        simp [this, hi]
      · simp
    · have : ¬ array.size < array.capacity := by omega
      simp only [this, if_false]
      omega
    · simp only
      omega
    · simp only
      omega
  · have hlt : array.size < array.capacity := by omega
    refine ⟨{ resources := fun i => if i = array.size then resource
                else array.resources i,
              size := array.size + 1, capacity := array.capacity }, ?_, ?_, rfl, ?_, ?_, ?_⟩
    · simp [resource_array_add, heq, hlt]
    · apply helems
      · intro i hi
        have : i ≠ array.size := by omega
        simp [this]
      · simp
    · simp [hlt]
    · simp only
      omega
    · exact h1

theorem system_array_add_ok (array : SystemArray) (system : Option Nat)
    (fresh : Nat → Option Nat) (h1 : 1 ≤ array.capacity) (h2 : array.size ≤ array.capacity) :
    ∃ a, system_array_add array system (some fresh) = .ok a ∧
      a.elems = array.elems ++ [system] ∧ a.size = array.size + 1 ∧
      a.capacity = (if array.size < array.capacity then array.capacity
        else 2 * array.capacity) ∧
      a.size ≤ a.capacity ∧ 1 ≤ a.capacity := by
  have helems : ∀ (f g : Nat → Option Nat) (n : Nat), (∀ i, i < n → g i = f i) →
      g n = system → (List.range (n + 1)).map g = (List.range n).map f ++ [system] := by
    intro f g n hfg hn
    rw [List.range_succ, List.map_append, List.map_singleton, hn]
    congr 1
    apply List.map_congr_left
    intro i hi
    exact hfg i (List.mem_range.mp hi)
  by_cases heq : array.size = array.capacity
  · refine ⟨{ systems := fun i => if i = array.size then system
                else if i < array.size then array.systems i else fresh i,
              size := array.size + 1, capacity := array.capacity * 2 }, ?_, ?_, rfl, ?_, ?_, ?_⟩
    · have hlt : array.size < array.capacity * 2 := by omega
      simp [system_array_add, heq, hlt]
      omega
    · apply helems
      · intro i hi
        have : i ≠ array.size := by omega
        simp [this, hi]
      · simp
    · have : ¬ array.size < array.capacity := by omega
      simp only [this, if_false]
      omega
    · simp only
      omega
    · simp only
      omega
  · have hlt : array.size < array.capacity := by omega
    refine ⟨{ systems := fun i => if i = array.size then system
                else array.systems i,
              size := array.size + 1, capacity := array.capacity }, ?_, ?_, rfl, ?_, ?_, ?_⟩
    · simp [system_array_add, heq, hlt]
    · apply helems
      · intro i hi
        have : i ≠ array.size := by omega
        simp [this]
      · simp
    · simp [hlt]
    · simp only
      omega
    · exact h1

theorem resource_array_add_all_ok (fresh : Nat → Option Nat) (handles : List (Option Nat)) :
    ∀ array : ResourceArray, 1 ≤ array.capacity → array.size ≤ array.capacity →
      ∃ a, resource_array_add_all fresh array handles = .ok a ∧
        a.elems = array.elems ++ handles ∧ a.size = array.size + handles.length ∧
        a.size ≤ a.capacity := by
  induction handles with
  | nil =>
    intro array _ h2
    exact ⟨array, rfl, by simp, by simp, h2⟩
  | cons h hs ih =>
    intro array h1 h2
    obtain ⟨a1, hadd, hel, hsz, -, hle, hcap⟩ := resource_array_add_ok array h fresh h1 h2
    obtain ⟨a, hall, hel2, hsz2, hle2⟩ := ih a1 hcap hle
    refine ⟨a, ?_, ?_, ?_, hle2⟩
    · simp [resource_array_add_all, hadd, hall]
    · rw [hel2, hel]
      simp
    · rw [hsz2, hsz]
      simp
      omega

theorem system_array_add_all_ok (fresh : Nat → Option Nat) (handles : List (Option Nat)) :
    ∀ array : SystemArray, 1 ≤ array.capacity → array.size ≤ array.capacity →
      ∃ a, system_array_add_all fresh array handles = .ok a ∧
        a.elems = array.elems ++ handles ∧ a.size = array.size + handles.length ∧
        a.size ≤ a.capacity := by
  induction handles with
  | nil =>
    intro array _ h2
    exact ⟨array, rfl, by simp, by simp, h2⟩
  | cons h hs ih =>
    intro array h1 h2
    obtain ⟨a1, hadd, hel, hsz, -, hle, hcap⟩ := system_array_add_ok array h fresh h1 h2
    obtain ⟨a, hall, hel2, hsz2, hle2⟩ := ih a1 hcap hle
    refine ⟨a, ?_, ?_, ?_, hle2⟩
    · simp [system_array_add_all, hadd, hall]
    · rw [hel2, hel]
      simp
    · rw [hsz2, hsz]
      simp
      omega

/-- C18: for a `ResourceArray`, and likewise a `SystemArray`, with `1 <= capacity` and
`size <= capacity`, an add (the allocation, if one is made, succeeding) yields an
array whose elements are the previous elements in the same order followed by the
added handle, with `size` one larger and `capacity` unchanged when
`size < capacity` and doubled when `size = capacity`; hence `n` adds after init give
an array holding the `n` handles in insertion order with `size = n <= capacity`. -/
theorem array_add_appends (rarray : ResourceArray) (sarray : SystemArray)
    (handle : Option Nat) (fresh : Nat → Option Nat) (handles : List (Option Nat))
    (hr1 : 1 ≤ rarray.capacity) (hr2 : rarray.size ≤ rarray.capacity)
    (hs1 : 1 ≤ sarray.capacity) (hs2 : sarray.size ≤ sarray.capacity) :
    (∃ a, resource_array_add rarray handle (some fresh) = .ok a ∧
      a.elems = rarray.elems ++ [handle] ∧ a.size = rarray.size + 1 ∧
      a.capacity = (if rarray.size < rarray.capacity then rarray.capacity
        else 2 * rarray.capacity)) ∧
    (∃ a, system_array_add sarray handle (some fresh) = .ok a ∧
      a.elems = sarray.elems ++ [handle] ∧ a.size = sarray.size + 1 ∧
      a.capacity = (if sarray.size < sarray.capacity then sarray.capacity
        else 2 * sarray.capacity)) ∧
    (∃ a, resource_array_add_all fresh (resource_array_init fresh) handles = .ok a ∧
      a.elems = handles ∧ a.size = handles.length ∧ a.size ≤ a.capacity) ∧
    (∃ a, system_array_add_all fresh (system_array_init fresh) handles = .ok a ∧
      a.elems = handles ∧ a.size = handles.length ∧ a.size ≤ a.capacity) := by
  refine ⟨?_, ?_, ?_, ?_⟩
  · obtain ⟨a, h1, h2, h3, h4, -, -⟩ := resource_array_add_ok rarray handle fresh hr1 hr2
    exact ⟨a, h1, h2, h3, h4⟩
  · obtain ⟨a, h1, h2, h3, h4, -, -⟩ := system_array_add_ok sarray handle fresh hs1 hs2
    exact ⟨a, h1, h2, h3, h4⟩
  · obtain ⟨a, h1, h2, h3, h4⟩ := resource_array_add_all_ok fresh handles
      (resource_array_init fresh) (by simp [resource_array_init])
      (by simp [resource_array_init])
    refine ⟨a, h1, ?_, ?_, h4⟩
    · rw [h2]
      simp [ResourceArray.elems, resource_array_init]
    · rw [h3]
      simp [resource_array_init]
  · obtain ⟨a, h1, h2, h3, h4⟩ := system_array_add_all_ok fresh handles
      (system_array_init fresh) (by simp [system_array_init])
      (by simp [system_array_init])
    refine ⟨a, h1, ?_, ?_, h4⟩
    · rw [h2]
      simp [SystemArray.elems, system_array_init]
    · rw [h3]
      simp [system_array_init]

theorem array_add_appends_witness :
    1 ≤ (2 : Nat) ∧ (2 : Nat) ≤ 2 ∧ 1 ≤ (4 : Nat) ∧ (1 : Nat) ≤ 4 ∧
    ((∃ a, resource_array_add
          { resources := fun i => if i = 0 then some 10 else some 11, size := 2, capacity := 2 }
          (some 12) (some (fun _ => none)) = .ok a ∧
      a.elems = ({ resources := fun i => if i = 0 then some 10 else some 11,
                   size := 2, capacity := 2 } : ResourceArray).elems ++ [some 12] ∧
      a.size = 2 + 1 ∧
      a.capacity = (if (2 : Nat) < 2 then 2 else 2 * 2)) ∧
    (∃ a, system_array_add
          { systems := fun _ => some 20, size := 1, capacity := 4 }
          (some 12) (some (fun _ => none)) = .ok a ∧
      a.elems = ({ systems := fun _ => some 20, size := 1, capacity := 4 } : SystemArray).elems
        ++ [some 12] ∧
      a.size = 1 + 1 ∧
      a.capacity = (if (1 : Nat) < 4 then 4 else 2 * 4)) ∧
    (∃ a, resource_array_add_all (fun _ => none) (resource_array_init (fun _ => none))
          [some 1, some 2, some 3] = .ok a ∧
      a.elems = [some 1, some 2, some 3] ∧ a.size = [some 1, some 2, some 3].length ∧
      a.size ≤ a.capacity) ∧
    (∃ a, system_array_add_all (fun _ => none) (system_array_init (fun _ => none))
          [some 1, some 2, some 3] = .ok a ∧
      a.elems = [some 1, some 2, some 3] ∧ a.size = [some 1, some 2, some 3].length ∧
      a.size ≤ a.capacity)) :=
  ⟨by decide, by decide, by decide, by decide,
   array_add_appends
     { resources := fun i => if i = 0 then some 10 else some 11, size := 2, capacity := 2 }
     { systems := fun _ => some 20, size := 1, capacity := 4 }
     (some 12) (fun _ => none) [some 1, some 2, some 3]
     (by decide) (by decide) (by decide) (by decide)⟩

/-! ## The run cycle: the pending amount and the events -/

/-- What `system_convert` leaves in `amount_stored`. -/
theorem system_convert_stored (system : System) (w : World) :
    (system_convert system w).2.1.amount_stored =
      if (system_convert system w).1 = .STATUS_OK then
        match system.produced.resource with
        | some _ => system.amount_stored + system.produced.amount
        | none => 0
      else system.amount_stored := by
  by_cases hok : (system_convert system w).1 = .STATUS_OK
  · rw [if_pos hok]
    cases hc : system.consumed.resource with
    | none =>
      unfold system_convert system_consume
      rw [hc]
      cases system.produced.resource <;> rfl
    | some c =>
      by_cases hle : system.consumed.amount ≤ (w.resources c).amount
      · rw [system_convert_ok_full system w c hc hle]
      · exfalso
        rw [system_convert_short system w c hc hle] at hok
        by_cases hz0 : (w.resources c).amount = 0 <;> simp [hz0] at hok
  · rw [if_neg hok]
    obtain ⟨c, -, -, hconv⟩ := system_convert_not_ok system w hok
    rw [hconv]

/-- A store of a positive pending amount leaves nothing or a positive amount, and in
the second case the produced resource is full afterwards. -/
theorem system_store_resources_leftover (system : System) (w : World)
    (hpos : 0 < system.amount_stored) :
    0 ≤ (system_store_resources system w).2.1.amount_stored ∧
    (system.produced.resource = none →
      (system_store_resources system w).2.1.amount_stored = 0) ∧
    (0 < (system_store_resources system w).2.1.amount_stored →
      ∃ p, system.produced.resource = some p ∧
        ((system_store_resources system w).2.2.resources p).max_capacity ≤
          ((system_store_resources system w).2.2.resources p).amount) := by
  cases hp : system.produced.resource with
  | none =>
    have : system_store_resources system w = (.STATUS_OK, { system with amount_stored := 0 }, w) := by
      simp [system_store_resources, hp]
    rw [this]
    simp
  | some p =>
    rw [system_store_resources_some system w p hp (by omega)]
    split
    · simp
    · split
      · refine ⟨by simp only; omega, by simp, fun _ => ⟨p, rfl, ?_⟩⟩
        simp [World.setResource]
      · refine ⟨by simp only; omega, by simp, fun _ => ⟨p, rfl, ?_⟩⟩
        simp only
        omega

theorem cycle_effect_stored (system : System) (w : World)
    (hp : 0 ≤ system.produced.amount) (hs : 0 ≤ system.amount_stored) :
    0 ≤ (cycle_effect system w).1.amount_stored ∧
    (system.produced.resource = none → (cycle_effect system w).1.amount_stored = 0) ∧
    (0 < (cycle_effect system w).1.amount_stored →
      ∃ p, system.produced.resource = some p ∧
        ((cycle_effect system w).2 p).max_capacity ≤ ((cycle_effect system w).2 p).amount) := by
  by_cases hz : system.amount_stored = 0
  · have hst := system_convert_stored system w
    have hprod : (system_convert system w).2.1.produced = system.produced :=
      (system_convert_fields system w).2.1
    have h1 : 0 ≤ (system_convert system w).2.1.amount_stored ∧
        (system.produced.resource = none →
          (system_convert system w).2.1.amount_stored = 0) := by
      rw [hst]
      split
      · cases system.produced.resource with
        | none => simp
        | some p => simp only; exact ⟨by omega, fun h => by cases h⟩
      · exact ⟨by omega, fun _ => hz⟩
    by_cases hpos : (system_convert system w).2.1.amount_stored > 0
    · have hce : cycle_effect system w =
          ((system_store_resources (system_convert system w).2.1
              (system_convert system w).2.2).2.1,
            (system_store_resources (system_convert system w).2.1
              (system_convert system w).2.2).2.2.resources) := by
        simp only [cycle_effect, if_pos hz]
        rw [if_pos hpos]
      rw [hce]
      have := system_store_resources_leftover (system_convert system w).2.1
        (system_convert system w).2.2 hpos
      rw [hprod] at this
      exact this
    · have hce : cycle_effect system w =
          ((system_convert system w).2.1, (system_convert system w).2.2.resources) := by
        simp only [cycle_effect, if_pos hz]
        rw [if_neg hpos]
      rw [hce]
      exact ⟨h1.1, h1.2, fun h => absurd h hpos⟩
  · have hpos : system.amount_stored > 0 := by omega
    have hce : cycle_effect system w =
        ((system_store_resources system w).2.1,
          (system_store_resources system w).2.2.resources) := by
      simp only [cycle_effect, if_neg hz, if_pos hpos]
    rw [hce]
    exact system_store_resources_leftover system w hpos

/-- C19: `amount_stored` is never negative. `system_create` sets it to 0, and for a
system with `produced.amount >= 0` and `amount_stored >= 0` one `system_run` cycle
(returned, or waiting in its push) ends with `amount_stored >= 0`: it is 0 for a
system without produced resource, and when it is positive the produced resource is
full (a partial or refused store left the rest pending). -/
theorem system_run_amount_stored_nonneg (d : Defs) (self : Nat) (malloc_ok : Bool)
    (system : System) (m : Machine) (consumed produced : ResourceAmount)
    (processing_time : Int) (event_queue : Option Nat)
    (hp : 0 ≤ system.produced.amount) (hs : 0 ≤ system.amount_stored) :
    (system_create consumed produced processing_time event_queue).amount_stored = 0 ∧
    ∃ system' m', (system_run d self malloc_ok system m).state = some (system', m') ∧
      0 ≤ system'.amount_stored ∧
      (system.produced.resource = none → system'.amount_stored = 0) ∧
      (0 < system'.amount_stored →
        ∃ p, system.produced.resource = some p ∧
          (m'.world.resources p).max_capacity ≤ (m'.world.resources p).amount) := by
  refine ⟨rfl, ?_⟩
  obtain ⟨m', hor, hres⟩ := system_run_effect d self malloc_ok system m
  obtain ⟨h1, h2, h3⟩ := cycle_effect_stored system m.world hp hs
  refine ⟨(cycle_effect system m.world).1, m', ?_, h1, h2, ?_⟩
  · rcases hor with h | h <;> rw [h] <;> rfl
  · rw [hres]
    exact h3

theorem system_run_amount_stored_nonneg_witness :
    (0 : Int) ≤ 7 ∧ (0 : Int) ≤ 0 ∧
    ((system_create ⟨some 0, 3⟩ ⟨some 1, 7⟩ 2 (some 0)).amount_stored = 0 ∧
    ∃ system' m',
      (system_run ⟨2, 1, 100⟩ 5 true
        { consumed := ⟨some 0, 3⟩, produced := ⟨some 1, 7⟩, processing_time := 2,
          event_queue := some 0, status := .STANDARD, amount_stored := 0 }
        { world := { resources := fun _ => ⟨8, 10⟩, slept := [] },
          queues := fun _ => event_queue_init }).state = some (system', m') ∧
      0 ≤ system'.amount_stored ∧
      (({ consumed := ⟨some 0, 3⟩, produced := ⟨some 1, 7⟩, processing_time := 2,
          event_queue := some 0, status := .STANDARD, amount_stored := 0 } :
          System).produced.resource = none → system'.amount_stored = 0) ∧
      (0 < system'.amount_stored →
        ∃ p,
          ({ consumed := ⟨some 0, 3⟩, produced := ⟨some 1, 7⟩, processing_time := 2,
             event_queue := some 0, status := .STANDARD, amount_stored := 0 } :
            System).produced.resource = some p ∧
          (m'.world.resources p).max_capacity ≤ (m'.world.resources p).amount)) :=
  ⟨by decide, by decide,
   system_run_amount_stored_nonneg ⟨2, 1, 100⟩ 5 true
     { consumed := ⟨some 0, 3⟩, produced := ⟨some 1, 7⟩, processing_time := 2,
       event_queue := some 0, status := .STANDARD, amount_stored := 0 }
     { world := { resources := fun _ => ⟨8, 10⟩, slept := [] },
       queues := fun _ => event_queue_init }
     ⟨some 0, 3⟩ ⟨some 1, 7⟩ 2 (some 0) (by decide) (by decide)⟩

/-- The store reports `STATUS_OK` exactly when nothing is left pending. -/
theorem system_store_resources_ok_iff (system : System) (w : World) :
    (system_store_resources system w).1 = .STATUS_OK ↔
      (system_store_resources system w).2.1.amount_stored = 0 := by
  constructor
  · intro h
    cases hp : system.produced.resource with
    | none => simp [system_store_resources, hp]
    | some p =>
      by_cases hz : system.amount_stored = 0
      · simp [system_store_resources, hp, hz]
      · have hs := system_store_resources_some system w p hp hz
        by_cases h1 : (w.resources p).max_capacity - (w.resources p).amount ≥
            system.amount_stored
        · rw [hs, if_pos h1]
        · rw [hs, if_neg h1] at h
          split at h <;> cases h
  · intro h
    by_contra hne
    obtain ⟨_, _, _, _, _, h'⟩ := system_store_resources_not_ok system w hne
    exact h' h

/-- The second block of `system_run` on a system with a queue: nothing left pending
and no push; or something left pending and one `PRIORITY_LOW`, `STATUS_CAPACITY`
event pushed, or the cycle waiting in that push. -/
theorem system_run_store_cases (d : Defs) (self : Nat) (s1 : System) (m1 : Machine)
    (qa : Nat) (hq : s1.event_queue = some qa) :
    ∃ s' w', s'.event_queue = some qa ∧
      (¬ 0 < s'.amount_stored →
        system_run_store d self true s1 m1 = .ret s' { world := w', queues := m1.queues }) ∧
      (0 < s'.amount_stored → 0 < (m1.queues qa).mutex →
        ∃ q' pre post e,
          system_run_store d self true s1 m1 =
            .ret s' { world := w', queues := fun b => if b = qa then q' else m1.queues b } ∧
          (m1.queues qa).head = pre ++ post ∧ q'.head = pre ++ e :: post ∧
          e.priority = d.PRIORITY_LOW ∧ e.status = .STATUS_CAPACITY) ∧
      (0 < s'.amount_stored → (m1.queues qa).mutex = 0 →
        ∃ w'', system_run_store d self true s1 m1 =
          .blocked s' { world := w'', queues := m1.queues }) := by
  by_cases hpos : 0 < s1.amount_stored
  · by_cases hok : (system_store_resources s1 m1.world).1 = .STATUS_OK
    · have hzero := (system_store_resources_ok_iff s1 m1.world).mp hok
      refine ⟨(system_store_resources s1 m1.world).2.1,
        (system_store_resources s1 m1.world).2.2, ?_, ?_, ?_, ?_⟩
      · rw [(system_store_resources_fields s1 m1.world).2.2.1, hq]
      · intro _
        rcases hst : system_store_resources s1 m1.world with ⟨st, s2, w2⟩
        rw [hst] at hok
        simp only at hok
        simp [system_run_store, hpos, hst, hok]
      · intro h
        omega
      · intro h
        omega
    · obtain ⟨p, hp, -, -, hstat, hne⟩ := system_store_resources_not_ok s1 m1.world hok
      have hp2 : (system_store_resources s1 m1.world).2.1.produced.resource = some p := by
        rw [(system_store_resources_fields s1 m1.world).2.1, hp]
      have hq2 : (system_store_resources s1 m1.world).2.1.event_queue = some qa := by
        rw [(system_store_resources_fields s1 m1.world).2.2.1, hq]
      have hstore : system_run_store d self true s1 m1 =
          match ({ m1 with world := (system_store_resources s1 m1.world).2.2 } : Machine).push
              (some qa)
              (event_init (some self) (some p) .STATUS_CAPACITY d.PRIORITY_LOW
                ((system_store_resources s1 m1.world).2.2.resources p).amount) true with
          | .blocked => .blocked (system_store_resources s1 m1.world).2.1
              { m1 with world := (system_store_resources s1 m1.world).2.2 }
          | .ret m2 => .ret (system_store_resources s1 m1.world).2.1
              { m2 with world := m2.world.usleep (d.SYSTEM_WAIT_TIME * 1000) } := by
        rcases hst : system_store_resources s1 m1.world with ⟨st, s2, w2⟩
        rw [hst] at hstat hp2 hq2
        simp only at hstat hp2 hq2
        subst hstat
        simp [system_run_store, hpos, hst, hp2, hq2]
      refine ⟨(system_store_resources s1 m1.world).2.1,
        (system_store_resources s1 m1.world).2.2.usleep (d.SYSTEM_WAIT_TIME * 1000),
        hq2, ?_, ?_, ?_⟩
      · intro h
        have := (system_store_resources_leftover s1 m1.world hpos).1
        omega
      · intro _ hlock
        obtain ⟨q', pre, post, hmp, hl, hh, -⟩ := Machine.push_some_insert
          ({ m1 with world := (system_store_resources s1 m1.world).2.2 } : Machine) qa
          (event_init (some self) (some p) .STATUS_CAPACITY d.PRIORITY_LOW
            ((system_store_resources s1 m1.world).2.2.resources p).amount) hlock
        refine ⟨q', pre, post, _, ?_, hl, hh, rfl, rfl⟩
        rw [hstore, hmp]
      · intro _ h0
        refine ⟨(system_store_resources s1 m1.world).2.2, ?_⟩
        rw [hstore, Machine.push_some_blocked
          ({ m1 with world := (system_store_resources s1 m1.world).2.2 } : Machine)
          qa _ true h0]
  · refine ⟨s1, m1.world, hq, fun _ => system_run_store_skip d self true s1 m1 hpos,
      fun h => absurd h hpos, fun h => absurd h hpos⟩

/-- C20: every `system_run` cycle of a system with a queue pushes at most one event.
When CONVERT runs and fails, `amount_stored` stays 0 and the cycle pushes exactly one
`PRIORITY_HIGH` event (or waits in that push when the semaphore is at 0); when STORE
leaves `amount_stored > 0`, CONVERT did not fail and the cycle pushes exactly one
`PRIORITY_LOW` event (or waits in that push); in every other case the cycle returns
with all queues unchanged. No other queue is ever touched. -/
theorem system_run_events (d : Defs) (self : Nat) (system : System) (m : Machine)
    (qa : Nat) (hq : system.event_queue = some qa) :
    ∃ s' m', (system_run d self true system m).state = some (s', m') ∧
      (∀ b, b ≠ qa → m'.queues b = m.queues b) ∧
      ((system.amount_stored = 0 ∧ (system_convert system m.world).1 ≠ .STATUS_OK) →
        s'.amount_stored = 0 ∧
        (0 < (m.queues qa).mutex →
          system_run d self true system m = .ret s' m' ∧
          ∃ pre post e, (m.queues qa).head = pre ++ post ∧
            (m'.queues qa).head = pre ++ e :: post ∧ e.priority = d.PRIORITY_HIGH) ∧
        ((m.queues qa).mutex = 0 →
          system_run d self true system m = .blocked s' m' ∧ m'.queues = m.queues)) ∧
      (0 < s'.amount_stored →
        ¬ (system.amount_stored = 0 ∧ (system_convert system m.world).1 ≠ .STATUS_OK) ∧
        (0 < (m.queues qa).mutex →
          system_run d self true system m = .ret s' m' ∧
          ∃ pre post e, (m.queues qa).head = pre ++ post ∧
            (m'.queues qa).head = pre ++ e :: post ∧ e.priority = d.PRIORITY_LOW) ∧
        ((m.queues qa).mutex = 0 →
          system_run d self true system m = .blocked s' m' ∧ m'.queues = m.queues)) ∧
      (¬ (system.amount_stored = 0 ∧ (system_convert system m.world).1 ≠ .STATUS_OK) →
        ¬ 0 < s'.amount_stored →
        system_run d self true system m = .ret s' m' ∧ m'.queues = m.queues) := by
  by_cases hA : system.amount_stored = 0 ∧ (system_convert system m.world).1 ≠ .STATUS_OK
  · obtain ⟨hz, hnok⟩ := hA
    obtain ⟨c, -, -, hrun⟩ := system_run_convert_report d self true system m hz hnok
    rw [hq] at hrun
    rcases Nat.eq_zero_or_pos (m.queues qa).mutex with h0 | hlock
    · have hb : system_run d self true system m = .blocked system m := by
        unfold system_run
        rw [hrun, Machine.push_some_blocked m qa _ true h0]
      refine ⟨system, m, by rw [hb]; rfl, fun _ _ => rfl, fun _ => ⟨hz, ?_, fun _ => ⟨hb, rfl⟩⟩,
        fun h => by omega, fun h => absurd ⟨hz, hnok⟩ h⟩
      intro h
      omega
    · obtain ⟨q', pre, post, hmp, hl, hh, -⟩ := Machine.push_some_insert m qa
        (event_init (some self) (some c)
          (if (m.world.resources c).amount = 0 then .STATUS_EMPTY else .STATUS_INSUFFICIENT)
          d.PRIORITY_HIGH (m.world.resources c).amount) hlock
      have hr : system_run d self true system m =
          .ret system
            { world := m.world.usleep (d.SYSTEM_WAIT_TIME * 1000),
              queues := fun b => if b = qa then q' else m.queues b } := by
        unfold system_run
        rw [hrun, hmp]
        simp only
        exact system_run_store_skip d self true system _ (by omega)
      refine ⟨system,
        { world := m.world.usleep (d.SYSTEM_WAIT_TIME * 1000),
          queues := fun b => if b = qa then q' else m.queues b },
        by rw [hr]; rfl, fun b hb => by simp [hb],
        fun _ => ⟨hz, fun _ => ⟨hr, pre, post,
          event_init (some self) (some c)
            (if (m.world.resources c).amount = 0 then .STATUS_EMPTY
              else .STATUS_INSUFFICIENT)
            d.PRIORITY_HIGH (m.world.resources c).amount, hl, ?_, rfl⟩, fun h => by omega⟩,
        fun h => by omega, fun h => absurd ⟨hz, hnok⟩ h⟩
      simpa using hh
  · have hrun : ∃ S1 M1, system_run d self true system m = system_run_store d self true S1 M1 ∧
        S1.event_queue = some qa ∧ M1.queues = m.queues := by
      by_cases hz : system.amount_stored = 0
      · have hok : (system_convert system m.world).1 = .STATUS_OK := by
          by_contra h
          exact hA ⟨hz, h⟩
        refine ⟨(system_convert system m.world).2.1,
          { m with world := (system_convert system m.world).2.2 }, ?_, ?_, rfl⟩
        · unfold system_run
          rw [system_run_convert_ok d self true system m hz hok]
        · rw [(system_convert_fields system m.world).2.2.1, hq]
      · refine ⟨system, m, ?_, hq, rfl⟩
        unfold system_run
        rw [system_run_convert_skip d self true system m hz]
    obtain ⟨S1, M1, hrun, hq1, hM1⟩ := hrun
    obtain ⟨s', w', -, hnone, hlow, hblk⟩ := system_run_store_cases d self S1 M1 qa hq1
    by_cases hpos : 0 < s'.amount_stored
    · rcases Nat.eq_zero_or_pos (m.queues qa).mutex with h0 | hlock
      · obtain ⟨w'', hb⟩ := hblk hpos (by rw [hM1]; exact h0)
        rw [← hrun, hM1] at hb
        refine ⟨s', { world := w'', queues := m.queues }, by rw [hb]; rfl,
          fun _ _ => rfl, fun h => absurd h hA,
          fun _ => ⟨hA, fun h => by omega, fun _ => ⟨hb, rfl⟩⟩, fun _ h => absurd hpos h⟩
      · obtain ⟨q', pre, post, e, hr, hl, hh, hprio, -⟩ :=
          hlow hpos (by rw [hM1]; exact hlock)
        rw [← hrun, hM1] at hr
        rw [hM1] at hl
        refine ⟨s', { world := w', queues := fun b => if b = qa then q' else m.queues b },
          by rw [hr]; rfl, fun b hb => by simp [hb], fun h => absurd h hA,
          fun _ => ⟨hA, fun _ => ⟨hr, pre, post, e, hl, ?_, hprio⟩, fun h => by omega⟩,
          fun _ h => absurd hpos h⟩
        simpa using hh
    · have hr := hnone hpos
      rw [← hrun, hM1] at hr
      exact ⟨s', { world := w', queues := m.queues }, by rw [hr]; rfl,
        fun _ _ => rfl, fun h => absurd h hA,
        fun h => absurd h hpos, fun _ _ => ⟨hr, rfl⟩⟩

theorem system_run_events_witness :
    (({ consumed := ⟨some 0, 3⟩, produced := ⟨some 1, 7⟩, processing_time := 2,
        event_queue := some 0, status := .STANDARD, amount_stored := 0 } : System).event_queue
      = some 0) ∧
    ∃ s' m',
      (system_run ⟨2, 1, 100⟩ 5 true
        { consumed := ⟨some 0, 3⟩, produced := ⟨some 1, 7⟩, processing_time := 2,
          event_queue := some 0, status := .STANDARD, amount_stored := 0 }
        { world := { resources := fun _ => ⟨1, 10⟩, slept := [] },
          queues := fun _ => event_queue_init }).state = some (s', m') ∧
      (∀ b, b ≠ 0 → m'.queues b = event_queue_init) :=
  ⟨rfl,
   (system_run_events ⟨2, 1, 100⟩ 5
     { consumed := ⟨some 0, 3⟩, produced := ⟨some 1, 7⟩, processing_time := 2,
       event_queue := some 0, status := .STANDARD, amount_stored := 0 }
     { world := { resources := fun _ => ⟨1, 10⟩, slept := [] },
       queues := fun _ => event_queue_init } 0 rfl).imp
     (fun _ h => h.imp (fun _ h => ⟨h.1, h.2.1⟩))⟩

/-! ## The run cycle: no read through a null resource pointer -/

/-- C21: `system_run` never reads `->amount` through a null resource pointer.
`system_convert` returns a status other than `STATUS_OK` only with a non-null
consumed resource, `system_store_resources` only with a non-null produced resource;
so for every system (raw producers and pure sinks included), every memory and
every allocator answer, neither block of `system_run` nor `system_run` itself ends
in a null dereference: the cycle returns or waits in its push. -/
theorem system_run_no_null_deref (d : Defs) (self : Nat) (malloc_ok : Bool)
    (system : System) (m : Machine) :
    ((system_convert system m.world).1 ≠ .STATUS_OK →
      ∃ c, system.consumed.resource = some c) ∧
    ((system_store_resources system m.world).1 ≠ .STATUS_OK →
      ∃ p, system.produced.resource = some p) ∧
    system_run_convert d self malloc_ok system m ≠ .null_deref ∧
    system_run_store d self malloc_ok system m ≠ .null_deref ∧
    system_run d self malloc_ok system m ≠ .null_deref ∧
    (∃ system' m', system_run d self malloc_ok system m = .ret system' m' ∨
      system_run d self malloc_ok system m = .blocked system' m') := by
  refine ⟨?_, ?_, ?_, ?_, ?_, ?_⟩
  · intro h
    obtain ⟨c, hc, _, _⟩ := system_convert_not_ok system m.world h
    exact ⟨c, hc⟩
  · intro h
    obtain ⟨p, hp, _, _, _, _⟩ := system_store_resources_not_ok system m.world h
    exact ⟨p, hp⟩
  · by_cases hz : system.amount_stored = 0
    · by_cases hok : (system_convert system m.world).1 = .STATUS_OK
      · rw [system_run_convert_ok d self malloc_ok system m hz hok]
        intro h
        cases h
      · obtain ⟨c, _, _, hrun⟩ := system_run_convert_report d self malloc_ok system m hz hok
        rw [hrun]
        split <;> (intro h; cases h)
    · rw [system_run_convert_skip d self malloc_ok system m hz]
      intro h
      cases h
  · obtain ⟨m', h, _⟩ := system_run_store_effect d self malloc_ok system m
    rcases h with h | h <;> rw [h] <;> (intro h'; cases h')
  · obtain ⟨m', h, _⟩ := system_run_effect d self malloc_ok system m
    rcases h with h | h <;> rw [h] <;> (intro h'; cases h')
  · obtain ⟨m', h, _⟩ := system_run_effect d self malloc_ok system m
    exact ⟨_, m', h⟩

theorem system_run_no_null_deref_witness :
    ((system_convert
        { consumed := ⟨none, 0⟩, produced := ⟨none, 0⟩, processing_time := 2,
          event_queue := some 0, status := .STANDARD, amount_stored := 4 }
        { resources := fun _ => ⟨1, 10⟩, slept := [] }).1 ≠ .STATUS_OK →
      ∃ c, ({ consumed := ⟨none, 0⟩, produced := ⟨none, 0⟩, processing_time := 2,
              event_queue := some 0, status := .STANDARD, amount_stored := 4 } :
            System).consumed.resource = some c) ∧
    system_run ⟨2, 1, 100⟩ 5 true
        { consumed := ⟨none, 0⟩, produced := ⟨none, 0⟩, processing_time := 2,
          event_queue := some 0, status := .STANDARD, amount_stored := 4 }
        { world := { resources := fun _ => ⟨1, 10⟩, slept := [] },
          queues := fun _ => event_queue_init } ≠ .null_deref :=
  ⟨(system_run_no_null_deref ⟨2, 1, 100⟩ 5 true
      { consumed := ⟨none, 0⟩, produced := ⟨none, 0⟩, processing_time := 2,
        event_queue := some 0, status := .STANDARD, amount_stored := 4 }
      { world := { resources := fun _ => ⟨1, 10⟩, slept := [] },
        queues := fun _ => event_queue_init }).1,
   (system_run_no_null_deref ⟨2, 1, 100⟩ 5 true
      { consumed := ⟨none, 0⟩, produced := ⟨none, 0⟩, processing_time := 2,
        event_queue := some 0, status := .STANDARD, amount_stored := 4 }
      { world := { resources := fun _ => ⟨1, 10⟩, slept := [] },
        queues := fun _ => event_queue_init }).2.2.2.2.1⟩

/-! ## The processing-time delay -/

theorem int32_of_range (x : Int) (h0 : -2147483648 ≤ x) (h1 : x ≤ 2147483647) :
    int32 x = x := by
  unfold int32
  omega

theorem useconds_t_of_range (x : Int) (h0 : 0 ≤ x) (h1 : x ≤ 4294967295) :
    useconds_t x = x := by
  unfold useconds_t
  omega

/-- The conversion to `useconds_t` undoes the wrap of the `int` product. -/
theorem useconds_t_int32 (x : Int) : useconds_t (int32 x) = useconds_t x := by
  unfold useconds_t int32
  omega

/-- The memory after `system_convert` differs from the one before by the resources
and, on `STATUS_OK`, by one processing-time sleep. -/
theorem system_convert_sleep (system : System) (w : World) :
    (system_convert system w).2.2.slept =
      (if (system_convert system w).1 = .STATUS_OK then
        (system_simulate_process_time system w).slept
      else w.slept) ∧
    (system_convert system w).2.2.during_sleep =
      (if (system_convert system w).1 = .STATUS_OK then w.during_sleep ++ [system]
      else w.during_sleep) := by
  cases hc : system.consumed.resource with
  | none =>
    unfold system_convert system_consume
    rw [hc]
    cases system.produced.resource <;> simp [system_simulate_process_time, World.usleep]
  | some c =>
    by_cases hle : system.consumed.amount ≤ (w.resources c).amount
    · rw [system_convert_ok_full system w c hc hle]
      simp [system_simulate_process_time, World.usleep, World.setResource]
    · rw [system_convert_short system w c hc hle]
      by_cases hz0 : (w.resources c).amount = 0 <;> simp [hz0]

/-- C16 as stated fails: with a processing time of 5000000 ms under `STANDARD` the
worker sleeps 705032704 microseconds, not 5000000 * 1000; with a processing time of
-3 ms under `FAST` the delay is -1 ms and the worker sleeps 4294966296 microseconds. -/
theorem system_simulate_process_time_overflow :
    (system_simulate_process_time
        { consumed := ⟨none, 0⟩, produced := ⟨none, 0⟩, processing_time := 5000000,
          event_queue := none, status := .STANDARD, amount_stored := 0 }
        { resources := fun _ => ⟨0, 10⟩, slept := [] }).slept = [705032704] ∧
    (705032704 : Int) ≠ 5000000 * 1000 ∧
    (system_simulate_process_time
        { consumed := ⟨none, 0⟩, produced := ⟨none, 0⟩, processing_time := -3,
          event_queue := none, status := .FAST, amount_stored := 0 }
        { resources := fun _ => ⟨0, 10⟩, slept := [] }).slept = [4294966296] ∧
    adjusted_processing_time
        { consumed := ⟨none, 0⟩, produced := ⟨none, 0⟩, processing_time := -3,
          event_queue := none, status := .FAST, amount_stored := 0 } = -1 := by
  refine ⟨?_, by decide, ?_, ?_⟩
  · simp [system_simulate_process_time, World.usleep, adjusted_processing_time, int32,
      useconds_t]
  · simp [system_simulate_process_time, World.usleep, adjusted_processing_time, int32,
      useconds_t]
    decide
  · simp [adjusted_processing_time]
    decide

/-- C16 (amended): when the delay `d` in milliseconds (`processing_time * 2` under
`SLOW`, `processing_time / 2` with C division under `FAST`, `processing_time` under
`STANDARD`) has `0 <= d * 1000 <= 4294967295`, the range of `useconds_t`,
`system_simulate_process_time` computes exactly `d` and sleeps it as
`usleep(d * 1000)`. `system_convert` makes that sleep
exactly when it returns `STATUS_OK` and none otherwise, and while the worker sleeps
the system record is the one `system_convert` was called with: `produced.amount` is
written to `amount_stored` only after the sleep. -/
theorem system_simulate_process_time_delay (system : System) (w : World)
    (h0 : 0 ≤ scaled_processing_time system * 1000)
    (h1 : scaled_processing_time system * 1000 ≤ 4294967295) :
    adjusted_processing_time system = scaled_processing_time system ∧
    (system.status = .SLOW → adjusted_processing_time system = system.processing_time * 2) ∧
    (system.status = .FAST →
      adjusted_processing_time system = Int.tdiv system.processing_time 2) ∧
    (system.status = .STANDARD → adjusted_processing_time system = system.processing_time) ∧
    system_simulate_process_time system w =
      { w with slept := w.slept ++ [adjusted_processing_time system * 1000],
               during_sleep := w.during_sleep ++ [system] } ∧
    (system_convert system w).2.2.slept =
      (if (system_convert system w).1 = .STATUS_OK then
        w.slept ++ [adjusted_processing_time system * 1000]
      else w.slept) ∧
    (system_convert system w).2.2.during_sleep =
      (if (system_convert system w).1 = .STATUS_OK then w.during_sleep ++ [system]
      else w.during_sleep) ∧
    (system_convert system w).2.1.amount_stored =
      (if (system_convert system w).1 = .STATUS_OK then
        match system.produced.resource with
        | some _ => system.amount_stored + system.produced.amount
        | none => 0
      else system.amount_stored) := by
  have hadj : adjusted_processing_time system = scaled_processing_time system := by
    unfold adjusted_processing_time scaled_processing_time at *
    cases hst : system.status <;> simp only [hst] at h0 h1 ⊢
    exact int32_of_range _ (by omega) (by omega)
  have harg : useconds_t (int32 (adjusted_processing_time system * 1000)) =
      adjusted_processing_time system * 1000 := by
    rw [hadj, useconds_t_int32, useconds_t_of_range _ h0 h1]
  have hsim : system_simulate_process_time system w =
      { w with slept := w.slept ++ [adjusted_processing_time system * 1000],
               during_sleep := w.during_sleep ++ [system] } := by
    simp [system_simulate_process_time, World.usleep, harg]
  refine ⟨hadj, ?_, ?_, ?_, hsim, ?_, (system_convert_sleep system w).2,
    system_convert_stored system w⟩
  · intro hs
    rw [hadj]
    simp [scaled_processing_time, hs]
  · intro hs
    rw [hadj]
    simp [scaled_processing_time, hs]
  · intro hs
    rw [hadj]
    simp [scaled_processing_time, hs]
  · rw [(system_convert_sleep system w).1, hsim]

theorem system_simulate_process_time_delay_witness :
    (0 : Int) ≤
      scaled_processing_time
        { consumed := ⟨some 0, 3⟩, produced := ⟨some 1, 7⟩, processing_time := 4,
          event_queue := none, status := .SLOW, amount_stored := 0 } * 1000 ∧
    scaled_processing_time
        { consumed := ⟨some 0, 3⟩, produced := ⟨some 1, 7⟩, processing_time := 4,
          event_queue := none, status := .SLOW, amount_stored := 0 } * 1000 ≤ 4294967295 ∧
    adjusted_processing_time
        { consumed := ⟨some 0, 3⟩, produced := ⟨some 1, 7⟩, processing_time := 4,
          event_queue := none, status := .SLOW, amount_stored := 0 } =
      scaled_processing_time
        { consumed := ⟨some 0, 3⟩, produced := ⟨some 1, 7⟩, processing_time := 4,
          event_queue := none, status := .SLOW, amount_stored := 0 } ∧
    (system_convert
        { consumed := ⟨some 0, 3⟩, produced := ⟨some 1, 7⟩, processing_time := 4,
          event_queue := none, status := .SLOW, amount_stored := 0 }
        { resources := fun _ => ⟨8, 10⟩, slept := [] }).2.2.slept =
      (if (system_convert
          { consumed := ⟨some 0, 3⟩, produced := ⟨some 1, 7⟩, processing_time := 4,
            event_queue := none, status := .SLOW, amount_stored := 0 }
          { resources := fun _ => ⟨8, 10⟩, slept := [] }).1 = .STATUS_OK then
        ([] : List Int) ++
          [adjusted_processing_time
            { consumed := ⟨some 0, 3⟩, produced := ⟨some 1, 7⟩, processing_time := 4,
              event_queue := none, status := .SLOW, amount_stored := 0 } * 1000]
      else []) :=
  ⟨by decide, by decide,
   (system_simulate_process_time_delay
      { consumed := ⟨some 0, 3⟩, produced := ⟨some 1, 7⟩, processing_time := 4,
        event_queue := none, status := .SLOW, amount_stored := 0 }
      { resources := fun _ => ⟨8, 10⟩, slept := [] } (by decide) (by decide)).1,
   (system_simulate_process_time_delay
      { consumed := ⟨some 0, 3⟩, produced := ⟨some 1, 7⟩, processing_time := 4,
        event_queue := none, status := .SLOW, amount_stored := 0 }
      { resources := fun _ => ⟨8, 10⟩, slept := [] } (by decide) (by decide)).2.2.2.2.2.1⟩

end CUinSpace
